import Mathlib

/-!
A verification development for the rewear-platform swap lifecycle engine.

The engine lives in src/server/routes/swaps.js (route handlers
POST /api/swaps, PUT /api/swaps/:id/respond, PUT /api/swaps/:id/complete,
DELETE /api/swaps/:id, plus the older POST /api/swaps/request and
PUT /api/swaps/:id/status handler family), together with the model-layer
helpers swapSchema.methods.updateStatus and swapSchema.pre("save")
(src/server/models/Swap.js), userSchema.methods.updateStats (the User
schema variant defining stats and a min-0 points validator,
src/unnamed/part_011), the Item schema status enum
(src/server/models/Item.js), and the TTL index on expiresAt
(src/server/models/Swap.js).

The embedding is a sequential (interleaving-free) state-transition
semantics: each HTTP handler becomes a function from an engine state and
a command to a new state paired with an optional domain error.  A thrown
JavaScript exception (a crash on a null document, or a mongoose
validation failure on save) surfaces as HTTP 500; it is modelled by the
error value `serverError`, and any document writes already awaited
before the throw stay applied, exactly as in the code.

Field-name notes, recorded here because the repository mixes schema
variants:
* the route handlers address swaps through the fields
  type/requester/owner/requestedItem/offeredItem/pointsOffered; the
  pre-save hook in src/server/models/Swap.js spells the offered item
  `ownerItem` but its own error message calls it "an offered item", and
  it is embedded over the offered-item field the handlers write;
* the POST /request and PUT /:id/status handlers address swaps through
  initiator/receiver/initiatorItem/receiverItem and address items
  through the boolean `isAvailable`; they are embedded over records
  carrying exactly those fields (`LegacySwap`, and the `isAvailable`
  field of `ItemRec`).
-/

namespace ReWear

/-- Swap type enum from the swap schema: ["direct", "points"]. -/
inductive SwapType where
  | direct
  | points
deriving DecidableEq, Repr

/-- Swap status enum: ["pending", "accepted", "rejected", "completed", "cancelled"]. -/
inductive SwapStatus where
  | pending
  | accepted
  | rejected
  | completed
  | cancelled
deriving DecidableEq, Repr

/-- Item status enum from src/server/models/Item.js:
["pending", "approved", "rejected", "available", "reserved", "swapped"]. -/
inductive ItemStatus where
  | pending
  | approved
  | rejected
  | available
  | reserved
  | swapped
deriving DecidableEq, Repr

/-- Typed domain failures; each constructor stands for one 4xx response
of the handlers, and `serverError` stands for HTTP 500 (an uncaught
exception or a mongoose validation failure). -/
inductive SwapError where
  | notFound
  | itemUnavailable
  | selfSwap
  | ownershipMismatch
  | insufficientBalance
  | belowMinimum
  | duplicateActiveSwap
  | invalidTransition
  | notParticipant
  | missingField
  | staleItem
  | staleOffered
  | invalidInput
  | serverError
deriving DecidableEq, Repr

/-- A user record: the points balance plus the stats sub-document of the
User schema variant in src/unnamed/part_011. -/
structure UserRec where
  points : Int
  statsItemsListed : Nat
  statsItemsSwapped : Nat
  statsPointsEarned : Nat
  statsPointsSpent : Nat
deriving DecidableEq, Repr

/-- An item record: the fields of src/server/models/Item.js the engine
reads (owner, pointValue, status), plus the boolean `isAvailable` field
addressed by the initiator/receiver handler family. -/
structure ItemRec where
  owner : Nat
  pointValue : Nat
  status : ItemStatus
  isAvailable : Bool
deriving DecidableEq, Repr

/-- A swap record as written by POST /api/swaps and mutated by
updateStatus: the timeline holds (status, timestamp) entries. -/
structure SwapRec where
  type : SwapType
  requester : Nat
  owner : Nat
  requestedItem : Nat
  offeredItem : Option Nat
  pointsOffered : Option Nat
  status : SwapStatus
  timeline : List (SwapStatus × Nat)
  acceptedAt : Option Nat
  completedAt : Option Nat
  expiresAt : Nat
deriving DecidableEq, Repr

/-- A swap record as written by POST /api/swaps/request and read by
PUT /api/swaps/:id/status (the initiator/receiver field family). -/
structure LegacySwap where
  initiator : Nat
  receiver : Nat
  initiatorItem : Nat
  receiverItem : Nat
  status : SwapStatus
deriving DecidableEq, Repr

/-- The whole engine-visible database: user, item and swap collections
keyed by ids, a fresh-id counter, and a logical clock for timestamps. -/
structure EngineState where
  users : List (Nat × UserRec)
  items : List (Nat × ItemRec)
  swaps : List (Nat × SwapRec)
  legacy : List (Nat × LegacySwap)
  nextId : Nat
  now : Nat
deriving DecidableEq, Repr

/-- findById over a keyed collection. -/
def lookup {α : Type} : List (Nat × α) → Nat → Option α
  | [], _ => none
  | p :: t, k => if p.1 = k then some p.2 else lookup t k

/-- Persisting a changed document: replace the record stored under a key. -/
def setEntry {α : Type} : List (Nat × α) → Nat → α → List (Nat × α)
  | [], _, _ => []
  | p :: t, k, v => (if p.1 = k then (k, v) else p) :: setEntry t k v

/-- The fixed TTL set by the swap schema default for expiresAt:
7 * 24 * 60 * 60 * 1000 milliseconds. -/
def sevenDaysMs : Nat := 604800000

/-- swapSchema.methods.updateStatus (src/server/models/Swap.js):
set the status, push a timeline entry, and stamp acceptedAt or
completedAt on the matching transitions. -/
def updateStatus (s : SwapRec) (newStatus : SwapStatus) (now : Nat) : SwapRec :=
  let s1 := { s with status := newStatus, timeline := s.timeline ++ [(newStatus, now)] }
  match newStatus with
  | SwapStatus.accepted => { s1 with acceptedAt := some now }
  | SwapStatus.completed => { s1 with completedAt := some now }
  | _ => s1

/-- The stat-update kinds accepted by userSchema.methods.updateStats. -/
inductive StatType where
  | itemListed
  | itemSwapped
  | pointsEarned
  | pointsSpent
deriving DecidableEq, Repr

/-- userSchema.methods.updateStats (src/unnamed/part_011): pointsEarned
and pointsSpent touch the live balance as well as the stats counters. -/
def updateStats (u : UserRec) (t : StatType) (value : Nat) : UserRec :=
  match t with
  | StatType.itemListed => { u with statsItemsListed := u.statsItemsListed + value }
  | StatType.itemSwapped => { u with statsItemsSwapped := u.statsItemsSwapped + value }
  | StatType.pointsEarned =>
      { u with statsPointsEarned := u.statsPointsEarned + value,
               points := u.points + (value : Int) }
  | StatType.pointsSpent =>
      { u with statsPointsSpent := u.statsPointsSpent + value,
               points := u.points - (value : Int) }

/-- The User schema validation run on every save: points carries
min: [0, "Points cannot be negative"] (src/unnamed/part_011). -/
def userSaveOk (u : UserRec) : Bool :=
  decide (0 ≤ u.points)

/-- swapSchema.pre("save") (src/server/models/Swap.js): direct swaps
must carry an offered item, point swaps must carry a (JS-truthy) points
offer, and self-swaps are refused; a failure is a thrown Error, i.e. a
500 for the caller. -/
def swapPreSave (s : SwapRec) : Option SwapError :=
  if s.type == SwapType.direct && s.offeredItem == none then
    some SwapError.serverError
  else if s.type == SwapType.points && s.pointsOffered.getD 0 == 0 then
    some SwapError.serverError
  else if s.requester == s.owner then
    some SwapError.serverError
  else
    none

/-- The direct-swap validation block of POST /api/swaps: the offered
item must exist, be owned by the requester, and be available. -/
def directChecks (st : EngineState) (requesterId : Nat) (offItemId : Option Nat) :
    Option SwapError :=
  match offItemId with
  | none => some SwapError.missingField
  | some oid =>
    match lookup st.items oid with
    | none => some SwapError.notFound
    | some offDoc =>
      if offDoc.owner ≠ requesterId then some SwapError.ownershipMismatch
      else if offDoc.status ≠ ItemStatus.available then some SwapError.itemUnavailable
      else none

/-- The points-swap validation block of POST /api/swaps: a truthy
points offer, a sufficient balance (checked first), and an offer of at
least the item's pointValue (checked second). -/
def pointsChecks (st : EngineState) (requesterId : Nat) (reqDoc : ItemRec)
    (po : Option Nat) : Option SwapError :=
  if po.getD 0 == 0 then some SwapError.missingField
  else
    match lookup st.users requesterId with
    | none => some SwapError.serverError
    | some u =>
      if u.points < ((po.getD 0 : Nat) : Int) then some SwapError.insufficientBalance
      else if po.getD 0 < reqDoc.pointValue then some SwapError.belowMinimum
      else none

/-- The duplicate check of POST /api/swaps: findOne on
requester = caller, requestedItem = the item, status = "pending". -/
def hasPendingDuplicate (st : EngineState) (requesterId reqItemId : Nat) : Bool :=
  st.swaps.any (fun p =>
    p.2.requester == requesterId && p.2.requestedItem == reqItemId &&
      p.2.status == SwapStatus.pending)

/-- POST /api/swaps: create a swap request.  Checks run in source
order: requested item exists and is available, no self-swap, the
type-specific block, the pending-duplicate check, then the save (which
runs the pre-save hook). -/
def createSwap (st : EngineState) (requesterId : Nat) (ty : SwapType)
    (reqItemId : Nat) (offItemId : Option Nat) (po : Option Nat) :
    EngineState × Option SwapError :=
  match lookup st.items reqItemId with
  | none => (st, some SwapError.notFound)
  | some reqDoc =>
    if reqDoc.status ≠ ItemStatus.available then (st, some SwapError.itemUnavailable)
    else if reqDoc.owner = requesterId then (st, some SwapError.selfSwap)
    else
      match (match ty with
             | SwapType.direct => directChecks st requesterId offItemId
             | SwapType.points => pointsChecks st requesterId reqDoc po) with
      | some e => (st, some e)
      | none =>
        if hasPendingDuplicate st requesterId reqItemId then
          (st, some SwapError.duplicateActiveSwap)
        else
          let s : SwapRec :=
            { type := ty
              requester := requesterId
              owner := reqDoc.owner
              requestedItem := reqItemId
              offeredItem := if ty == SwapType.direct then offItemId else none
              pointsOffered := if ty == SwapType.points then po else none
              status := SwapStatus.pending
              timeline := []
              acceptedAt := none
              completedAt := none
              expiresAt := st.now + sevenDaysMs }
          match swapPreSave s with
          | some e => (st, some e)
          | none =>
            ({ st with swaps := st.swaps ++ [(st.nextId, s)],
                       nextId := st.nextId + 1 }, none)

/-- The direct-swap re-check of PUT /api/swaps/:id/respond accept:
the offered item must still be available; a missing offered document is
a null dereference in the handler, i.e. a 500. -/
def offeredRecheck (st : EngineState) (s : SwapRec) : Option SwapError :=
  if s.type == SwapType.direct then
    match s.offeredItem with
    | none => some SwapError.serverError
    | some oid =>
      match lookup st.items oid with
      | none => some SwapError.serverError
      | some offDoc =>
        if offDoc.status ≠ ItemStatus.available then some SwapError.staleOffered
        else none
  else none

/-- The points re-check of PUT /api/swaps/:id/respond accept: the
requester must still hold at least pointsOffered. -/
def pointsRecheck (st : EngineState) (s : SwapRec) : Option SwapError :=
  if s.type == SwapType.points then
    match lookup st.users s.requester with
    | none => some SwapError.serverError
    | some u =>
      if u.points < ((s.pointsOffered.getD 0 : Nat) : Int) then
        some SwapError.insufficientBalance
      else none
  else none

/-- The accept effects of PUT /api/swaps/:id/respond, in source order:
updateStatus("accepted") is saved first, then the requested item (and
the offered item for direct swaps) is marked reserved, and finally for
point swaps the requester is debited and the owner credited, each user
save running the min-0 points validation. -/
def acceptEffects (st : EngineState) (swapId : Nat) (s : SwapRec) (reqDoc : ItemRec) :
    EngineState × Option SwapError :=
  let st1 := { st with swaps := setEntry st.swaps swapId (updateStatus s SwapStatus.accepted st.now) }
  let st2 := { st1 with items := setEntry st1.items s.requestedItem { reqDoc with status := ItemStatus.reserved } }
  let st3 :=
    if s.type == SwapType.direct then
      match s.offeredItem with
      | some oid =>
        match lookup st2.items oid with
        | some offDoc =>
          { st2 with items := setEntry st2.items oid { offDoc with status := ItemStatus.reserved } }
        | none => st2
      | none => st2
    else st2
  if s.type == SwapType.points then
    match lookup st3.users s.requester, lookup st3.users s.owner with
    | some ur, some ow =>
      let po : Int := ((s.pointsOffered.getD 0 : Nat) : Int)
      let urNew := { ur with points := ur.points - po }
      let owNew := { ow with points := ow.points + po }
      if !userSaveOk urNew then (st3, some SwapError.serverError)
      else
        let st4 := { st3 with users := setEntry st3.users s.requester urNew }
        if !userSaveOk owNew then (st4, some SwapError.serverError)
        else ({ st4 with users := setEntry st4.users s.owner owNew }, none)
    | _, _ => (st3, some SwapError.serverError)
  else (st3, none)

/-- PUT /api/swaps/:id/respond: only the owner may respond, only on a
pending swap; an accept re-validates item availability and requester
solvency before any mutation, a reject just records the transition. -/
def respondSwap (st : EngineState) (swapId actingUser : Nat) (accept : Bool) :
    EngineState × Option SwapError :=
  match lookup st.swaps swapId with
  | none => (st, some SwapError.notFound)
  | some s =>
    if s.owner ≠ actingUser then (st, some SwapError.notParticipant)
    else if s.status ≠ SwapStatus.pending then (st, some SwapError.invalidTransition)
    else if accept then
      match lookup st.items s.requestedItem with
      | none => (st, some SwapError.serverError)
      | some reqDoc =>
        if reqDoc.status ≠ ItemStatus.available then (st, some SwapError.staleItem)
        else
          match offeredRecheck st s with
          | some e => (st, some e)
          | none =>
            match pointsRecheck st s with
            | some e => (st, some e)
            | none => acceptEffects st swapId s reqDoc
    else
      ({ st with swaps := setEntry st.swaps swapId (updateStatus s SwapStatus.rejected st.now) }, none)

/-- swapSchema.methods.isParticipant. -/
def isParticipant (s : SwapRec) (userId : Nat) : Bool :=
  s.requester == userId || s.owner == userId

/-- The offered-item write of PUT /api/swaps/:id/complete: for direct
swaps the offered item is marked swapped; a missing offered document is
a null dereference, i.e. a 500 with the earlier writes kept. -/
def completeOfferedPhase (st : EngineState) (s : SwapRec) :
    EngineState × Option SwapError :=
  if s.type == SwapType.direct then
    match s.offeredItem with
    | none => (st, some SwapError.serverError)
    | some oid =>
      match lookup st.items oid with
      | none => (st, some SwapError.serverError)
      | some offDoc =>
        ({ st with items := setEntry st.items oid { offDoc with status := ItemStatus.swapped } }, none)
  else (st, none)

/-- The item writes of PUT /api/swaps/:id/complete: the requested item
is marked swapped, then the offered item for direct swaps. -/
def completeItemsPhase (st : EngineState) (s : SwapRec) :
    EngineState × Option SwapError :=
  match lookup st.items s.requestedItem with
  | none => (st, some SwapError.serverError)
  | some reqDoc =>
    completeOfferedPhase
      { st with items := setEntry st.items s.requestedItem { reqDoc with status := ItemStatus.swapped } } s

/-- The pointsEarned credit of PUT /api/swaps/:id/complete: for point
swaps the owner receives updateStats("pointsEarned", pointsOffered),
crediting the owner's live balance on top of the stats counter; the
save runs the min-0 validation.  `ow` is the owner document as already
saved by the preceding itemSwapped update. -/
def completePointsPhase (st : EngineState) (s : SwapRec) (ow : UserRec) :
    EngineState × Option SwapError :=
  if s.type == SwapType.points then
    if !userSaveOk (updateStats ow StatType.pointsEarned (s.pointsOffered.getD 0)) then
      (st, some SwapError.serverError)
    else
      ({ st with
          users := setEntry st.users s.owner (updateStats ow StatType.pointsEarned (s.pointsOffered.getD 0)) },
        none)
  else (st, none)

/-- The owner half of the user-stats writes of complete, acting on the
owner document fetched before the requester save. -/
def completeOwnerPhase (st : EngineState) (s : SwapRec) (owFetched : Option UserRec) :
    EngineState × Option SwapError :=
  match owFetched with
  | none => (st, some SwapError.serverError)
  | some ow =>
    if !userSaveOk (updateStats ow StatType.itemSwapped 1) then (st, some SwapError.serverError)
    else
      completePointsPhase
        { st with users := setEntry st.users s.owner (updateStats ow StatType.itemSwapped 1) }
        s (updateStats ow StatType.itemSwapped 1)

/-- The user-stats writes of PUT /api/swaps/:id/complete: both parties
are fetched up front, then updateStats("itemSwapped") is saved for the
requester and the owner in turn, then the pointsEarned credit runs for
point swaps.  A missing document is a null dereference at its use
site, keeping the writes already saved. -/
def completeUserPhase (st : EngineState) (s : SwapRec) :
    EngineState × Option SwapError :=
  match lookup st.users s.requester with
  | none => (st, some SwapError.serverError)
  | some ur =>
    if !userSaveOk (updateStats ur StatType.itemSwapped 1) then (st, some SwapError.serverError)
    else
      completeOwnerPhase
        { st with users := setEntry st.users s.requester (updateStats ur StatType.itemSwapped 1) }
        s (lookup st.users s.owner)

/-- The post-guard effects of PUT /api/swaps/:id/complete, in source
order: updateStatus("completed") is saved first, then the item writes,
then the user-stats writes. -/
def completeEffects (st : EngineState) (swapId : Nat) (s : SwapRec) :
    EngineState × Option SwapError :=
  match completeItemsPhase
      { st with swaps := setEntry st.swaps swapId (updateStatus s SwapStatus.completed st.now) } s with
  | (st3, some e) => (st3, some e)
  | (st3, none) => completeUserPhase st3 s

/-- PUT /api/swaps/:id/complete: a participant completes an accepted
swap. -/
def completeSwap (st : EngineState) (swapId actingUser : Nat) :
    EngineState × Option SwapError :=
  match lookup st.swaps swapId with
  | none => (st, some SwapError.notFound)
  | some s =>
    if !isParticipant s actingUser then (st, some SwapError.notParticipant)
    else if s.status ≠ SwapStatus.accepted then (st, some SwapError.invalidTransition)
    else completeEffects st swapId s

/-- DELETE /api/swaps/:id: only the requester may cancel, and only a
pending swap; the only mutation is updateStatus("cancelled"). -/
def cancelSwap (st : EngineState) (swapId actingUser : Nat) :
    EngineState × Option SwapError :=
  match lookup st.swaps swapId with
  | none => (st, some SwapError.notFound)
  | some s =>
    if s.requester ≠ actingUser then (st, some SwapError.notParticipant)
    else if s.status ≠ SwapStatus.pending then (st, some SwapError.invalidTransition)
    else ({ st with swaps := setEntry st.swaps swapId (updateStatus s SwapStatus.cancelled st.now) }, none)

/-- POST /api/swaps/request (the initiator/receiver handler family):
validates distinct parties, item existence, ownership on both sides and
the boolean isAvailable flags, refuses a pending duplicate in either
direction, then inserts a pending record. -/
def requestSwap (st : EngineState) (initiatorId receiverId initItemId recvItemId : Nat) :
    EngineState × Option SwapError :=
  if initiatorId = receiverId then (st, some SwapError.selfSwap)
  else
    match lookup st.items initItemId, lookup st.items recvItemId with
    | some initDoc, some recvDoc =>
      if initDoc.owner ≠ initiatorId then (st, some SwapError.ownershipMismatch)
      else if recvDoc.owner ≠ receiverId then (st, some SwapError.ownershipMismatch)
      else if !initDoc.isAvailable || !recvDoc.isAvailable then (st, some SwapError.itemUnavailable)
      else if st.legacy.any (fun p =>
          (p.2.initiator == initiatorId && p.2.receiver == receiverId &&
             p.2.initiatorItem == initItemId && p.2.receiverItem == recvItemId &&
             p.2.status == SwapStatus.pending) ||
          (p.2.initiator == receiverId && p.2.receiver == initiatorId &&
             p.2.initiatorItem == recvItemId && p.2.receiverItem == initItemId &&
             p.2.status == SwapStatus.pending)) then
        (st, some SwapError.duplicateActiveSwap)
      else
        ({ st with
             legacy := st.legacy ++
               [(st.nextId,
                 { initiator := initiatorId, receiver := receiverId,
                   initiatorItem := initItemId, receiverItem := recvItemId,
                   status := SwapStatus.pending })],
             nextId := st.nextId + 1 }, none)
    | _, _ => (st, some SwapError.notFound)

/-- Item.findByIdAndUpdate(itemId, \x7b isAvailable \x7d): a silent
no-op when the item does not exist. -/
def setItemAvailable (items : List (Nat × ItemRec)) (itemId : Nat) (b : Bool) :
    List (Nat × ItemRec) :=
  match lookup items itemId with
  | some it => setEntry items itemId { it with isAvailable := b }
  | none => items

/-- The "+50 points per completed swap" credit of PUT /:id/status: a
missing user is silently skipped (the handler null-checks); a save that
fails the min-0 validation throws.  Returns the users collection and
whether the save threw. -/
def creditFifty (users : List (Nat × UserRec)) (uid : Nat) :
    List (Nat × UserRec) × Bool :=
  match lookup users uid with
  | none => (users, false)
  | some u =>
    let uNew := { u with points := u.points + 50 }
    if userSaveOk uNew then (setEntry users uid uNew, false) else (users, true)

/-- PUT /api/swaps/:id/status (the initiator/receiver handler family):
accept/reject demand the receiver acting on a pending swap; complete
demands an accepted swap, flips both items' isAvailable off and awards
50 points to each existing party; cancelled is allowed from any
non-completed status — including accepted — for either party, flipping
both items' isAvailable back on.  The swap document itself is saved
last, after the item and user writes. -/
def statusUpdateSwap (st : EngineState) (swapId actingUser : Nat) (newStatus : SwapStatus) :
    EngineState × Option SwapError :=
  if newStatus == SwapStatus.pending then (st, some SwapError.invalidInput)
  else
    match lookup st.legacy swapId with
    | none => (st, some SwapError.notFound)
    | some s =>
      let isInitiator := s.initiator == actingUser
      let isReceiver := s.receiver == actingUser
      if !isInitiator && !isReceiver then (st, some SwapError.notParticipant)
      else if newStatus == SwapStatus.accepted then
        if !isReceiver || s.status ≠ SwapStatus.pending then (st, some SwapError.invalidTransition)
        else ({ st with legacy := setEntry st.legacy swapId { s with status := SwapStatus.accepted } }, none)
      else if newStatus == SwapStatus.rejected then
        if !isReceiver || s.status ≠ SwapStatus.pending then (st, some SwapError.invalidTransition)
        else ({ st with legacy := setEntry st.legacy swapId { s with status := SwapStatus.rejected } }, none)
      else if newStatus == SwapStatus.completed then
        if s.status ≠ SwapStatus.accepted then (st, some SwapError.invalidTransition)
        else
          let st1 := { st with
            items := setItemAvailable (setItemAvailable st.items s.initiatorItem false) s.receiverItem false }
          let c1 := creditFifty st1.users s.initiator
          let st2 := { st1 with users := c1.1 }
          if c1.2 then (st2, some SwapError.serverError)
          else
            let c2 := creditFifty st2.users s.receiver
            let st3 := { st2 with users := c2.1 }
            if c2.2 then (st3, some SwapError.serverError)
            else ({ st3 with legacy := setEntry st3.legacy swapId { s with status := SwapStatus.completed } }, none)
      else
        if s.status == SwapStatus.completed then (st, some SwapError.invalidTransition)
        else
          let st1 := { st with
            items := setItemAvailable (setItemAvailable st.items s.initiatorItem true) s.receiverItem true }
          ({ st1 with legacy := setEntry st1.legacy swapId { s with status := SwapStatus.cancelled } }, none)

/-- The retention predicate of the TTL sweep: a record survives unless
it is pending and its expiresAt has passed. -/
def reapKeep (now : Nat) (p : Nat × SwapRec) : Bool :=
  !(p.2.status == SwapStatus.pending && decide (p.2.expiresAt ≤ now))

/-- Modelled from the spec: the spec's reap() background sweep has no
handler in the routes; the code implements expiry through the TTL index
of src/server/models/Swap.js (expireAfterSeconds: 0 with a partial
filter on status "pending"), whose effect is that MongoDB deletes every
pending swap whose expiresAt lies at or before the current time.  The
sweep below embeds that index's documented effect. -/
def reap (st : EngineState) : EngineState :=
  { st with swaps := st.swaps.filter (reapKeep st.now) }

/-- One engine command of the create/respond/complete/cancel family. -/
inductive EngineOp where
  | create (requesterId : Nat) (ty : SwapType) (reqItemId : Nat)
      (offItemId : Option Nat) (po : Option Nat)
  | respond (swapId actingUser : Nat) (accept : Bool)
  | complete (swapId actingUser : Nat)
  | cancel (swapId actingUser : Nat)
deriving DecidableEq, Repr

/-- Dispatch one engine command. -/
def applyOp (st : EngineState) (op : EngineOp) : EngineState × Option SwapError :=
  match op with
  | EngineOp.create r ty i oi po => createSwap st r ty i oi po
  | EngineOp.respond k u a => respondSwap st k u a
  | EngineOp.complete k u => completeSwap st k u
  | EngineOp.cancel k u => cancelSwap st k u

/-- Run a sequential trace of engine commands, keeping each resulting
state whether the command succeeded or failed. -/
def runOps (st : EngineState) (ops : List EngineOp) : EngineState :=
  ops.foldl (fun s op => (applyOp s op).1) st

/-- Every stored user has a non-negative points balance. -/
def balancesNonneg (st : EngineState) : Prop :=
  ∀ p ∈ st.users, 0 ≤ p.2.points

/-- The points offer of a swap as an integer (JS reads a missing field
as falsy). -/
def poInt (s : SwapRec) : Int := ((s.pointsOffered.getD 0 : Nat) : Int)

/-- Whether a stored swap entry counts as active for the
(requester, requestedItem) pair. -/
def activeFor (p : Nat × SwapRec) (r i : Nat) : Bool :=
  p.2.requester == r && p.2.requestedItem == i &&
    (p.2.status == SwapStatus.pending || p.2.status == SwapStatus.accepted)

/-- At most one pending-or-accepted swap per (requester, requestedItem)
pair. -/
def uniqueActive (st : EngineState) : Prop :=
  ∀ r i : Nat, st.swaps.countP (fun p => activeFor p r i) ≤ 1

/-- The requested item of every accepted swap is not available. -/
def acceptedReserved (st : EngineState) : Prop :=
  ∀ p ∈ st.swaps, p.2.status = SwapStatus.accepted →
    ∀ it, lookup st.items p.2.requestedItem = some it → it.status ≠ ItemStatus.available

/-- Swap ids are pairwise distinct. -/
def swapKeysNodup (st : EngineState) : Prop := (st.swaps.map Prod.fst).Nodup

/-- Swap ids stay below the fresh-id counter. -/
def swapKeysBounded (st : EngineState) : Prop := ∀ p ∈ st.swaps, p.1 < st.nextId

/-- The inductive invariant carried through every engine command. -/
structure SwapInv (st : EngineState) : Prop where
  nodup : swapKeysNodup st
  bounded : swapKeysBounded st
  uniq : uniqueActive st
  accItem : acceptedReserved st

/-- Every stored swap names two distinct parties. -/
def noSelfSwaps (st : EngineState) : Prop :=
  ∀ p ∈ st.swaps, p.2.requester ≠ p.2.owner

def demoUserA : UserRec :=
  { points := 120, statsItemsListed := 0, statsItemsSwapped := 0,
    statsPointsEarned := 0, statsPointsSpent := 0 }

def demoUserB : UserRec :=
  { points := 0, statsItemsListed := 0, statsItemsSwapped := 0,
    statsPointsEarned := 0, statsPointsSpent := 0 }

def demoPoorUser : UserRec :=
  { points := 50, statsItemsListed := 0, statsItemsSwapped := 0,
    statsPointsEarned := 0, statsPointsSpent := 0 }

def demoItemX : ItemRec :=
  { owner := 2, pointValue := 100, status := ItemStatus.available, isAvailable := true }

def demoItemY : ItemRec :=
  { owner := 1, pointValue := 50, status := ItemStatus.available, isAvailable := true }

/-- User 1 holds 120 points; user 2 owns the 100-point item 10. -/
def demoState : EngineState :=
  { users := [(1, demoUserA), (2, demoUserB)], items := [(10, demoItemX)],
    swaps := [], legacy := [], nextId := 0, now := 1000 }

/-- demoState after user 1 files a 100-point swap request for item 10. -/
def demoPending : EngineState :=
  (createSwap demoState 1 SwapType.points 10 none (some 100)).1

/-- demoPending after owner 2 accepts: the 100 points moved at accept. -/
def demoAccepted : EngineState :=
  (respondSwap demoPending 0 2 true).1

/-- A points-swap trace: request, accept, complete. -/
def demoOps : List EngineOp :=
  [EngineOp.create 1 SwapType.points 10 none (some 100),
   EngineOp.respond 0 2 true,
   EngineOp.complete 0 1]

/-- A pending 100-point swap whose requester holds only 50 points. -/
def demoPoorSwap : SwapRec :=
  { type := SwapType.points, requester := 1, owner := 2, requestedItem := 10,
    offeredItem := none, pointsOffered := some 100, status := SwapStatus.pending,
    timeline := [], acceptedAt := none, completedAt := none, expiresAt := 9999 }

def demoPoorState : EngineState :=
  { users := [(1, demoPoorUser), (2, demoUserB)], items := [(10, demoItemX)],
    swaps := [(0, demoPoorSwap)], legacy := [], nextId := 1, now := 1000 }

/-- Two users each owning an available item, for direct swaps. -/
def demoDirectState : EngineState :=
  { users := [(1, demoUserA), (2, demoUserB)], items := [(10, demoItemX), (20, demoItemY)],
    swaps := [], legacy := [], nextId := 0, now := 1000 }

def demoDirectPending : EngineState :=
  (createSwap demoDirectState 1 SwapType.direct 10 (some 20) none).1

def demoDirectAccepted : EngineState :=
  (respondSwap demoDirectPending 0 2 true).1

/-- The initiator/receiver handler family: items 11 and 12, one per user. -/
def demoLegacyState : EngineState :=
  { users := [(1, demoUserA), (2, demoUserB)],
    items := [(11, demoItemY), (12, { owner := 2, pointValue := 60, status := ItemStatus.available, isAvailable := true })],
    swaps := [], legacy := [], nextId := 0, now := 1000 }

def demoLegacyPending : EngineState :=
  (requestSwap demoLegacyState 1 2 11 12).1

def demoLegacyAccepted : EngineState :=
  (statusUpdateSwap demoLegacyPending 0 2 SwapStatus.accepted).1

/-- demoPending at a clock past the swap's expiresAt. -/
def demoExpired : EngineState :=
  { demoPending with now := demoPending.now + sevenDaysMs }

/-- The swap record created inside demoPending. -/
def demoPendingSwap : SwapRec :=
  { type := SwapType.points, requester := 1, owner := 2, requestedItem := 10,
    offeredItem := none, pointsOffered := some 100, status := SwapStatus.pending,
    timeline := [], acceptedAt := none, completedAt := none, expiresAt := 604801000 }

/-- The swap record as it stands inside demoAccepted. -/
def demoAcceptedSwap : SwapRec :=
  { demoPendingSwap with status := SwapStatus.accepted, timeline := [(SwapStatus.accepted, 1000)], acceptedAt := some 1000 }

/-- The direct swap record created inside demoDirectPending. -/
def demoDirectSwap : SwapRec :=
  { type := SwapType.direct, requester := 1, owner := 2, requestedItem := 10,
    offeredItem := some 20, pointsOffered := none, status := SwapStatus.pending,
    timeline := [], acceptedAt := none, completedAt := none, expiresAt := 604801000 }

/-- The demo state whose pending swap targets an already-reserved
item. -/
def demoStaleState : EngineState :=
  { users := [(1, demoUserA), (2, demoUserB)],
    items := [(10, { demoItemX with status := ItemStatus.reserved })],
    swaps := [(0, demoPoorSwap)], legacy := [], nextId := 1, now := 1000 }

def demoItemXReserved : ItemRec := { demoItemX with status := ItemStatus.reserved }

def demoUserA20 : UserRec := { demoUserA with points := 20 }

def demoUserB100 : UserRec := { demoUserB with points := 100 }

/-! ### Store lemmas -/

theorem lookup_setEntry {α : Type} (l : List (Nat × α)) (k j : Nat) (v : α) :
    lookup (setEntry l k v) j =
      if j = k then (lookup l k).map (fun _ => v) else lookup l j := by
  induction l with
  | nil => by_cases h : j = k <;> simp [lookup, setEntry, h]
  | cons p t ih =>
    by_cases hpk : p.1 = k
    · by_cases hjk : j = k
      · simp [lookup, setEntry, hpk, hjk]
      · have hpj : ¬ p.1 = j := fun h => hjk (h ▸ hpk ▸ rfl)
        simp [lookup, setEntry, hpk, hjk, hpj, Ne.symm hjk, ih]
    · by_cases hpj : p.1 = j
      · have hjk : ¬ j = k := fun h => hpk (hpj.trans h)
        simp [lookup, setEntry, hpk, hpj, hjk]
      · simp [lookup, setEntry, hpk, hpj, ih]

theorem map_fst_setEntry {α : Type} (l : List (Nat × α)) (k : Nat) (v : α) :
    (setEntry l k v).map Prod.fst = l.map Prod.fst := by
  induction l with
  | nil => rfl
  | cons p t ih =>
    by_cases h : p.1 = k <;> simp [setEntry, h, ih]

theorem mem_setEntry {α : Type} {l : List (Nat × α)} {k : Nat} {v : α} {q : Nat × α}
    (hq : q ∈ setEntry l k v) : q ∈ l ∨ q = (k, v) := by
  induction l with
  | nil => simp [setEntry] at hq
  | cons p t ih =>
    simp only [setEntry, List.mem_cons] at hq
    rcases hq with hq | hq
    · by_cases h : p.1 = k
      · simp [h] at hq
        exact Or.inr hq
      · simp [h] at hq
        exact Or.inl (by simp [hq])
    · rcases ih hq with h | h
      · exact Or.inl (List.mem_cons_of_mem _ h)
      · exact Or.inr h

theorem lookup_mem {α : Type} {l : List (Nat × α)} {k : Nat} {v : α}
    (h : lookup l k = some v) : (k, v) ∈ l := by
  induction l with
  | nil => simp [lookup] at h
  | cons p t ih =>
    cases p with
    | mk a b =>
      by_cases hak : a = k
      · subst hak
        simp [lookup] at h
        subst h
        exact List.mem_cons_self _ _
      · simp [lookup, hak] at h
        exact List.mem_cons_of_mem _ (ih h)

theorem lookup_append_of_some {α : Type} {l : List (Nat × α)} (t : List (Nat × α))
    {k : Nat} {v : α} (h : lookup l k = some v) : lookup (l ++ t) k = some v := by
  induction l with
  | nil => simp [lookup] at h
  | cons p r ih =>
    by_cases hpk : p.1 = k <;> simp [lookup, hpk] at h ⊢
    · exact h
    · exact ih h

theorem lookup_of_key_fresh {α : Type} {l : List (Nat × α)} {k : Nat}
    (h : ∀ p ∈ l, p.1 ≠ k) : lookup l k = none := by
  induction l with
  | nil => rfl
  | cons p t ih =>
    have hp : p.1 ≠ k := h p (List.mem_cons_self _ _)
    simp [lookup, hp]
    exact ih fun q hq => h q (List.mem_cons_of_mem _ hq)

theorem setEntry_setEntry {α : Type} (l : List (Nat × α)) (k : Nat) (v w : α) :
    setEntry (setEntry l k v) k w = setEntry l k w := by
  induction l with
  | nil => rfl
  | cons p t ih =>
    by_cases h : p.1 = k <;> simp [setEntry, h, ih]

theorem countP_setEntry_le {α : Type} (l : List (Nat × α)) (k : Nat) (v : α)
    (q : Nat × α → Bool)
    (h : ∀ p ∈ l, p.1 = k → q (k, v) = true → q p = true) :
    (setEntry l k v).countP q ≤ l.countP q := by
  induction l with
  | nil => simp [setEntry]
  | cons p t ih =>
    have iht : (setEntry t k v).countP q ≤ t.countP q :=
      ih fun r hr => h r (List.mem_cons_of_mem _ hr)
    by_cases hpk : p.1 = k
    · by_cases hv : q (k, v) = true
      · have hp : q p = true := h p (List.mem_cons_self _ _) hpk hv
        simp [setEntry, hpk, List.countP_cons, hv, hp]
        omega
      · simp [setEntry, hpk, List.countP_cons, hv]
        have hv2 : ¬ q (k, v) = true := hv
        simp [hv2]
        omega
    · simp [setEntry, hpk, List.countP_cons]
      omega

theorem lookup_key_unique {α : Type} {l : List (Nat × α)} {k : Nat} {v : α}
    (hnd : (l.map Prod.fst).Nodup) (hl : lookup l k = some v) :
    ∀ p ∈ l, p.1 = k → p.2 = v := by
  induction l with
  | nil => intro p hp; simp at hp
  | cons q t ih =>
    intro p hp hpk
    simp only [List.map_cons, List.nodup_cons] at hnd
    rcases List.mem_cons.mp hp with hpq | hpt
    · subst hpq
      simp [lookup, hpk] at hl
      exact hl
    · by_cases hqk : q.1 = k
      · exfalso
        exact hnd.1 (by
          have : p.1 ∈ t.map Prod.fst := List.mem_map_of_mem Prod.fst hpt
          rw [hpk] at this
          rw [hqk]
          exact this)
      · simp [lookup, hqk] at hl
        exact ih hnd.2 hl p hpt hpk

/-! ### The non-negative balance invariant -/

theorem balances_setEntry {users : List (Nat × UserRec)} {k : Nat} {v : UserRec}
    (h : ∀ p ∈ users, 0 ≤ p.2.points) (hv : 0 ≤ v.points) :
    ∀ p ∈ setEntry users k v, 0 ≤ p.2.points := by
  intro p hp
  rcases mem_setEntry hp with h1 | h1
  · exact h p h1
  · subst h1; exact hv

theorem balancesNonneg_create (st : EngineState) (r : Nat) (ty : SwapType)
    (i : Nat) (oi : Option Nat) (po : Option Nat) (h : balancesNonneg st) :
    balancesNonneg (createSwap st r ty i oi po).1 := by
  unfold createSwap
  dsimp only
  repeat' split
  all_goals exact h

theorem balancesNonneg_acceptEffects (st : EngineState) (k : Nat) (s : SwapRec)
    (ri : ItemRec) (h : balancesNonneg st) :
    balancesNonneg (acceptEffects st k s ri).1 := by
  unfold acceptEffects
  dsimp only
  repeat' split
  all_goals intro p hp
  all_goals simp only [userSaveOk, Bool.not_eq_true, decide_eq_false_iff_not, Int.not_lt,
    not_lt, not_le] at *
  all_goals repeat (rcases mem_setEntry hp with hp | rfl)
  all_goals first
    | exact h p hp
    | omega
    | simp_all

theorem balancesNonneg_respond (st : EngineState) (k u : Nat) (a : Bool)
    (h : balancesNonneg st) : balancesNonneg (respondSwap st k u a).1 := by
  unfold respondSwap
  repeat' split
  all_goals first
    | exact h
    | exact balancesNonneg_acceptEffects _ _ _ _ h

theorem balancesNonneg_of_users_eq {st1 st2 : EngineState} (h : balancesNonneg st1)
    (he : st2.users = st1.users) : balancesNonneg st2 := by
  intro p hp
  rw [he] at hp
  exact h p hp

theorem completeOfferedPhase_users (st : EngineState) (s : SwapRec) :
    (completeOfferedPhase st s).1.users = st.users := by
  unfold completeOfferedPhase
  repeat' split
  all_goals rfl

theorem completeItemsPhase_users (st : EngineState) (s : SwapRec) :
    (completeItemsPhase st s).1.users = st.users := by
  unfold completeItemsPhase
  split
  · rfl
  · rw [completeOfferedPhase_users]

theorem balancesNonneg_completePointsPhase (st : EngineState) (s : SwapRec)
    (ow : UserRec) (h : balancesNonneg st) :
    balancesNonneg (completePointsPhase st s ow).1 := by
  unfold completePointsPhase
  split
  · split
    · exact h
    · next hg =>
      intro p hp
      rcases mem_setEntry hp with hp | rfl
      · exact h p hp
      · simp only [userSaveOk, Bool.not_eq_true, Bool.not_eq_false, decide_eq_true_eq] at hg
        simpa using hg
  · exact h

theorem balancesNonneg_completeOwnerPhase (st : EngineState) (s : SwapRec)
    (owF : Option UserRec) (h : balancesNonneg st) :
    balancesNonneg (completeOwnerPhase st s owF).1 := by
  unfold completeOwnerPhase
  split
  · exact h
  · split
    · exact h
    · next ow hg =>
      apply balancesNonneg_completePointsPhase
      intro p hp
      rcases mem_setEntry hp with hp | rfl
      · exact h p hp
      · simp only [userSaveOk, Bool.not_eq_true, Bool.not_eq_false, decide_eq_true_eq] at hg
        simpa using hg

theorem balancesNonneg_completeUserPhase (st : EngineState) (s : SwapRec)
    (h : balancesNonneg st) : balancesNonneg (completeUserPhase st s).1 := by
  unfold completeUserPhase
  split
  · exact h
  · split
    · exact h
    · next ur hg =>
      apply balancesNonneg_completeOwnerPhase
      intro p hp
      rcases mem_setEntry hp with hp | rfl
      · exact h p hp
      · simp only [userSaveOk, Bool.not_eq_true, Bool.not_eq_false, decide_eq_true_eq] at hg
        simpa using hg

theorem balancesNonneg_completeEffects (st : EngineState) (k : Nat) (s : SwapRec)
    (h : balancesNonneg st) : balancesNonneg (completeEffects st k s).1 := by
  unfold completeEffects
  split
  · next st3 e heq =>
    refine balancesNonneg_of_users_eq h ?he
    have h2 := congrArg (fun q => (q : EngineState × Option SwapError).1.users) heq
    simp only [completeItemsPhase_users] at h2
    exact h2.symm
  · next st3 heq =>
    apply balancesNonneg_completeUserPhase
    refine balancesNonneg_of_users_eq h ?he2
    have h2 := congrArg (fun q => (q : EngineState × Option SwapError).1.users) heq
    simp only [completeItemsPhase_users] at h2
    exact h2.symm

theorem balancesNonneg_complete (st : EngineState) (k u : Nat)
    (h : balancesNonneg st) : balancesNonneg (completeSwap st k u).1 := by
  unfold completeSwap
  repeat' split
  all_goals first
    | exact h
    | exact balancesNonneg_completeEffects _ _ _ h

theorem balancesNonneg_cancel (st : EngineState) (k u : Nat)
    (h : balancesNonneg st) : balancesNonneg (cancelSwap st k u).1 := by
  unfold cancelSwap
  repeat' split
  all_goals exact h

theorem balancesNonneg_applyOp (st : EngineState) (op : EngineOp)
    (h : balancesNonneg st) : balancesNonneg (applyOp st op).1 := by
  cases op with
  | create r ty i oi po => exact balancesNonneg_create st r ty i oi po h
  | respond k u a => exact balancesNonneg_respond st k u a h
  | complete k u => exact balancesNonneg_complete st k u h
  | cancel k u => exact balancesNonneg_cancel st k u h

theorem balancesNonneg_runOps (st : EngineState) (ops : List EngineOp)
    (h : balancesNonneg st) : balancesNonneg (runOps st ops) := by
  induction ops generalizing st with
  | nil => exact h
  | cons op rest ih =>
    exact ih _ (balancesNonneg_applyOp st op h)

/-! ### Shape lemmas for the accept path -/

theorem acceptEffects_swaps (st : EngineState) (k : Nat) (s : SwapRec) (ri : ItemRec) :
    (acceptEffects st k s ri).1.swaps =
      setEntry st.swaps k (updateStatus s SwapStatus.accepted st.now) := by
  unfold acceptEffects
  dsimp only
  repeat' split
  all_goals rfl

theorem acceptEffects_nextId (st : EngineState) (k : Nat) (s : SwapRec) (ri : ItemRec) :
    (acceptEffects st k s ri).1.nextId = st.nextId := by
  unfold acceptEffects
  dsimp only
  repeat' split
  all_goals rfl

theorem acceptEffects_now (st : EngineState) (k : Nat) (s : SwapRec) (ri : ItemRec) :
    (acceptEffects st k s ri).1.now = st.now := by
  unfold acceptEffects
  dsimp only
  repeat' split
  all_goals rfl

theorem acceptEffects_points_items (st : EngineState) (k : Nat) (s : SwapRec) (ri : ItemRec)
    (h : s.type = SwapType.points) :
    (acceptEffects st k s ri).1.items =
      setEntry st.items s.requestedItem { ri with status := ItemStatus.reserved } := by
  unfold acceptEffects
  dsimp only
  simp only [h]
  repeat' split
  all_goals first
    | rfl
    | simp_all

theorem acceptEffects_direct_items (st : EngineState) (k : Nat) (s : SwapRec) (ri : ItemRec)
    (oid : Nat) (oi2 : ItemRec)
    (h : s.type = SwapType.direct) (ho : s.offeredItem = some oid)
    (h2 : lookup (setEntry st.items s.requestedItem { ri with status := ItemStatus.reserved }) oid
        = some oi2) :
    (acceptEffects st k s ri).1.items =
      setEntry (setEntry st.items s.requestedItem { ri with status := ItemStatus.reserved }) oid
        { oi2 with status := ItemStatus.reserved } := by
  unfold acceptEffects
  dsimp only
  simp only [h, ho]
  simp [h2]

theorem acceptEffects_direct_result (st : EngineState) (k : Nat) (s : SwapRec) (ri : ItemRec)
    (h : s.type = SwapType.direct) :
    (acceptEffects st k s ri).1.users = st.users ∧ (acceptEffects st k s ri).2 = none := by
  unfold acceptEffects
  dsimp only
  simp only [h]
  repeat' split
  all_goals first
    | exact ⟨rfl, rfl⟩
    | simp_all

theorem acceptEffects_points_result (st : EngineState) (k : Nat) (s : SwapRec) (ri : ItemRec)
    (ur ow : UserRec)
    (h : s.type = SwapType.points)
    (hur : lookup st.users s.requester = some ur)
    (how : lookup st.users s.owner = some ow)
    (h1 : 0 ≤ ur.points - poInt s)
    (h2 : 0 ≤ ow.points + poInt s) :
    (acceptEffects st k s ri).1.users =
      setEntry (setEntry st.users s.requester { ur with points := ur.points - poInt s })
        s.owner { ow with points := ow.points + poInt s } ∧
    (acceptEffects st k s ri).2 = none := by
  unfold acceptEffects
  dsimp only
  unfold poInt at h1 h2
  simp only [h]
  simp [hur, how, userSaveOk, h1, h2, poInt]

/-! ### Reduction lemmas for respond -/

theorem offeredRecheck_of_points (st : EngineState) (s : SwapRec)
    (h : s.type = SwapType.points) : offeredRecheck st s = none := by
  unfold offeredRecheck
  simp [h]

theorem pointsRecheck_of_direct (st : EngineState) (s : SwapRec)
    (h : s.type = SwapType.direct) : pointsRecheck st s = none := by
  unfold pointsRecheck
  simp [h]

theorem offeredRecheck_of_avail (st : EngineState) (s : SwapRec) (oid : Nat) (oi : ItemRec)
    (h : s.type = SwapType.direct) (ho : s.offeredItem = some oid)
    (hoi : lookup st.items oid = some oi) (hav : oi.status = ItemStatus.available) :
    offeredRecheck st s = none := by
  unfold offeredRecheck
  simp [h, ho, hoi, hav]

theorem offeredRecheck_of_stale (st : EngineState) (s : SwapRec) (oid : Nat) (oi : ItemRec)
    (h : s.type = SwapType.direct) (ho : s.offeredItem = some oid)
    (hoi : lookup st.items oid = some oi) (hav : oi.status ≠ ItemStatus.available) :
    offeredRecheck st s = some SwapError.staleOffered := by
  unfold offeredRecheck
  simp [h, ho, hoi, hav]

theorem pointsRecheck_of_solvent (st : EngineState) (s : SwapRec) (ur : UserRec)
    (h : s.type = SwapType.points) (hur : lookup st.users s.requester = some ur)
    (hge : poInt s ≤ ur.points) : pointsRecheck st s = none := by
  unfold pointsRecheck
  unfold poInt at hge
  simp [h, hur]
  omega

theorem pointsRecheck_of_insolvent (st : EngineState) (s : SwapRec) (ur : UserRec)
    (h : s.type = SwapType.points) (hur : lookup st.users s.requester = some ur)
    (hlt : ur.points < poInt s) : pointsRecheck st s = some SwapError.insufficientBalance := by
  unfold pointsRecheck
  unfold poInt at hlt
  simp [h, hur]
  omega

theorem respondSwap_accept_run (st : EngineState) (k : Nat) (s : SwapRec) (ri : ItemRec)
    (hs : lookup st.swaps k = some s) (hpend : s.status = SwapStatus.pending)
    (hri : lookup st.items s.requestedItem = some ri)
    (hav : ri.status = ItemStatus.available)
    (hoff : offeredRecheck st s = none) (hpts : pointsRecheck st s = none) :
    respondSwap st k s.owner true = acceptEffects st k s ri := by
  unfold respondSwap
  simp [hs, hpend, hri, hav, hoff, hpts]

theorem respondSwap_staleItem (st : EngineState) (k : Nat) (s : SwapRec) (ri : ItemRec)
    (hs : lookup st.swaps k = some s) (hpend : s.status = SwapStatus.pending)
    (hri : lookup st.items s.requestedItem = some ri)
    (hav : ri.status ≠ ItemStatus.available) :
    respondSwap st k s.owner true = (st, some SwapError.staleItem) := by
  unfold respondSwap
  simp [hs, hpend, hri, hav]

theorem respondSwap_recheckErr (st : EngineState) (k : Nat) (s : SwapRec) (ri : ItemRec)
    (e : SwapError)
    (hs : lookup st.swaps k = some s) (hpend : s.status = SwapStatus.pending)
    (hri : lookup st.items s.requestedItem = some ri)
    (hav : ri.status = ItemStatus.available)
    (hoff : offeredRecheck st s = some e) :
    respondSwap st k s.owner true = (st, some e) := by
  unfold respondSwap
  simp [hs, hpend, hri, hav, hoff]

theorem respondSwap_pointsErr (st : EngineState) (k : Nat) (s : SwapRec) (ri : ItemRec)
    (e : SwapError)
    (hs : lookup st.swaps k = some s) (hpend : s.status = SwapStatus.pending)
    (hri : lookup st.items s.requestedItem = some ri)
    (hav : ri.status = ItemStatus.available)
    (hoff : offeredRecheck st s = none)
    (hpts : pointsRecheck st s = some e) :
    respondSwap st k s.owner true = (st, some e) := by
  unfold respondSwap
  simp [hs, hpend, hri, hav, hoff, hpts]

/-! ### Shape lemmas for the complete path -/

theorem updateStatus_status (s : SwapRec) (ns : SwapStatus) (now : Nat) :
    (updateStatus s ns now).status = ns := by
  cases ns <;> rfl

theorem updateStatus_requester (s : SwapRec) (ns : SwapStatus) (now : Nat) :
    (updateStatus s ns now).requester = s.requester := by
  cases ns <;> rfl

theorem updateStatus_owner (s : SwapRec) (ns : SwapStatus) (now : Nat) :
    (updateStatus s ns now).owner = s.owner := by
  cases ns <;> rfl

theorem updateStatus_requestedItem (s : SwapRec) (ns : SwapStatus) (now : Nat) :
    (updateStatus s ns now).requestedItem = s.requestedItem := by
  cases ns <;> rfl

theorem updateStatus_timeline (s : SwapRec) (ns : SwapStatus) (now : Nat) :
    (updateStatus s ns now).timeline = s.timeline ++ [(ns, now)] := by
  cases ns <;> rfl

theorem updateStatus_completedAt (s : SwapRec) (now : Nat) :
    (updateStatus s SwapStatus.completed now).completedAt = some now := by
  rfl

theorem completeOfferedPhase_swaps (st : EngineState) (s : SwapRec) :
    (completeOfferedPhase st s).1.swaps = st.swaps := by
  unfold completeOfferedPhase
  repeat' split
  all_goals rfl

theorem completeItemsPhase_swaps (st : EngineState) (s : SwapRec) :
    (completeItemsPhase st s).1.swaps = st.swaps := by
  unfold completeItemsPhase
  split
  · rfl
  · rw [completeOfferedPhase_swaps]

theorem completePointsPhase_swaps (st : EngineState) (s : SwapRec) (ow : UserRec) :
    (completePointsPhase st s ow).1.swaps = st.swaps := by
  unfold completePointsPhase
  repeat' split
  all_goals rfl

theorem completeOwnerPhase_swaps (st : EngineState) (s : SwapRec) (owF : Option UserRec) :
    (completeOwnerPhase st s owF).1.swaps = st.swaps := by
  unfold completeOwnerPhase
  repeat' split
  all_goals first
    | rfl
    | rw [completePointsPhase_swaps]

theorem completeUserPhase_swaps (st : EngineState) (s : SwapRec) :
    (completeUserPhase st s).1.swaps = st.swaps := by
  unfold completeUserPhase
  repeat' split
  all_goals first
    | rfl
    | rw [completeOwnerPhase_swaps]

theorem completePointsPhase_items (st : EngineState) (s : SwapRec) (ow : UserRec) :
    (completePointsPhase st s ow).1.items = st.items := by
  unfold completePointsPhase
  repeat' split
  all_goals rfl

theorem completeOwnerPhase_items (st : EngineState) (s : SwapRec) (owF : Option UserRec) :
    (completeOwnerPhase st s owF).1.items = st.items := by
  unfold completeOwnerPhase
  repeat' split
  all_goals first
    | rfl
    | rw [completePointsPhase_items]

theorem completeUserPhase_items (st : EngineState) (s : SwapRec) :
    (completeUserPhase st s).1.items = st.items := by
  unfold completeUserPhase
  repeat' split
  all_goals first
    | rfl
    | rw [completeOwnerPhase_items]

theorem completeEffects_swaps (st : EngineState) (k : Nat) (s : SwapRec) :
    (completeEffects st k s).1.swaps =
      setEntry st.swaps k (updateStatus s SwapStatus.completed st.now) := by
  unfold completeEffects
  split
  · next st3 e heq =>
    have h2 := congrArg (fun q => (q : EngineState × Option SwapError).1.swaps) heq
    simp only [completeItemsPhase_swaps] at h2
    exact h2.symm
  · next st3 heq =>
    rw [completeUserPhase_swaps]
    have h2 := congrArg (fun q => (q : EngineState × Option SwapError).1.swaps) heq
    simp only [completeItemsPhase_swaps] at h2
    exact h2.symm

theorem completeItemsPhase_points (st : EngineState) (s : SwapRec) (ri : ItemRec)
    (h : s.type = SwapType.points) (hri : lookup st.items s.requestedItem = some ri) :
    completeItemsPhase st s =
      ({ st with items := setEntry st.items s.requestedItem { ri with status := ItemStatus.swapped } },
        none) := by
  unfold completeItemsPhase completeOfferedPhase
  simp [h, hri]

theorem completeItemsPhase_direct (st : EngineState) (s : SwapRec) (ri : ItemRec)
    (oid : Nat) (oi2 : ItemRec)
    (h : s.type = SwapType.direct) (ho : s.offeredItem = some oid)
    (hri : lookup st.items s.requestedItem = some ri)
    (hoi : lookup (setEntry st.items s.requestedItem { ri with status := ItemStatus.swapped }) oid
        = some oi2) :
    completeItemsPhase st s =
      ({ st with items := setEntry (setEntry st.items s.requestedItem { ri with status := ItemStatus.swapped }) oid { oi2 with status := ItemStatus.swapped } }, none) := by
  unfold completeItemsPhase completeOfferedPhase
  simp [h, ho, hri, hoi]

theorem completeUserPhase_points_ok (st : EngineState) (s : SwapRec) (ur ow : UserRec)
    (h : s.type = SwapType.points)
    (hur : lookup st.users s.requester = some ur)
    (how : lookup st.users s.owner = some ow)
    (h1 : 0 ≤ ur.points) (h2 : 0 ≤ ow.points) :
    completeUserPhase st s =
      ({ st with users := setEntry (setEntry st.users s.requester (updateStats ur StatType.itemSwapped 1)) s.owner (updateStats (updateStats ow StatType.itemSwapped 1) StatType.pointsEarned (s.pointsOffered.getD 0)) }, none) := by
  have h3 : 0 ≤ (updateStats (updateStats ow StatType.itemSwapped 1) StatType.pointsEarned
      (s.pointsOffered.getD 0)).points := by
    simp only [updateStats]
    have hpo : (0 : Int) ≤ ((s.pointsOffered.getD 0 : Nat) : Int) := Int.ofNat_nonneg _
    omega
  unfold completeUserPhase completeOwnerPhase completePointsPhase
  simp only [hur, how, h]
  simp only [userSaveOk, updateStats] at h3 ⊢
  simp [h1, h2, h3]
  rw [setEntry_setEntry]

theorem completeUserPhase_direct_ok (st : EngineState) (s : SwapRec) (ur ow : UserRec)
    (h : s.type = SwapType.direct)
    (hur : lookup st.users s.requester = some ur)
    (how : lookup st.users s.owner = some ow)
    (h1 : 0 ≤ ur.points) (h2 : 0 ≤ ow.points) :
    completeUserPhase st s =
      ({ st with users := setEntry (setEntry st.users s.requester (updateStats ur StatType.itemSwapped 1)) s.owner (updateStats ow StatType.itemSwapped 1) }, none) := by
  unfold completeUserPhase completeOwnerPhase completePointsPhase
  simp only [hur, how, h, userSaveOk, updateStats]
  simp [h1, h2]

theorem completeSwap_run (st : EngineState) (k u : Nat) (s : SwapRec)
    (hs : lookup st.swaps k = some s) (hpart : isParticipant s u = true)
    (hacc : s.status = SwapStatus.accepted) :
    completeSwap st k u = completeEffects st k s := by
  unfold completeSwap
  simp [hs, hpart, hacc]

theorem completeSwap_success_inv (st : EngineState) (k u : Nat)
    (h : (completeSwap st k u).2 = none) :
    ∃ s, lookup st.swaps k = some s ∧ isParticipant s u = true ∧
      s.status = SwapStatus.accepted := by
  unfold completeSwap at h
  split at h
  · simp at h
  · next s heq =>
    refine ⟨s, heq, ?hp, ?hq⟩
    · by_contra hc
      simp [hc] at h
    · by_contra hc
      have hp2 : isParticipant s u = true := by
        by_contra hc2
        simp [hc2] at h
      simp [hp2, hc] at h

theorem cancelSwap_success_inv (st : EngineState) (k u : Nat)
    (h : (cancelSwap st k u).2 = none) :
    ∃ s, lookup st.swaps k = some s ∧ s.requester = u ∧
      s.status = SwapStatus.pending := by
  unfold cancelSwap at h
  split at h
  · simp at h
  · next s heq =>
    refine ⟨s, heq, ?hp, ?hq⟩
    · by_contra hc
      simp [hc] at h
    · by_contra hc
      have hp2 : s.requester = u := by
        by_contra hc2
        simp [hc2] at h
      simp [hp2, hc] at h

/-! ### State-shape case analyses for the four engine commands -/

theorem createSwap_state_cases (st : EngineState) (r : Nat) (ty : SwapType) (i : Nat)
    (oi po : Option Nat) :
    (createSwap st r ty i oi po).1 = st ∨
    (∃ reqDoc x,
      (createSwap st r ty i oi po).1 =
        { st with swaps := st.swaps ++ [(st.nextId, x)], nextId := st.nextId + 1 } ∧
      lookup st.items i = some reqDoc ∧ reqDoc.status = ItemStatus.available ∧
      hasPendingDuplicate st r i = false ∧
      x.requester = r ∧ x.requestedItem = i ∧ x.status = SwapStatus.pending ∧
      swapPreSave x = none) := by
  unfold createSwap
  dsimp only
  split
  · exact Or.inl rfl
  next reqDoc heqI =>
  split
  · exact Or.inl rfl
  next hna =>
  split
  · exact Or.inl rfl
  next _hno =>
  split
  · exact Or.inl rfl
  next _heqTy =>
  split
  · exact Or.inl rfl
  next hdup =>
  split
  · exact Or.inl rfl
  next heqPre =>
  exact Or.inr ⟨reqDoc, _, rfl, heqI, not_not.mp hna, eq_false_of_ne_true hdup, rfl, rfl, rfl,
    heqPre⟩

theorem respondSwap_state_cases (st : EngineState) (k u : Nat) (a : Bool) :
    (respondSwap st k u a).1 = st ∨
    (∃ s, lookup st.swaps k = some s ∧ s.status = SwapStatus.pending ∧
      (respondSwap st k u a).1 =
        { st with swaps := setEntry st.swaps k (updateStatus s SwapStatus.rejected st.now) }) ∨
    (∃ s ri, lookup st.swaps k = some s ∧ s.status = SwapStatus.pending ∧
      lookup st.items s.requestedItem = some ri ∧
      (respondSwap st k u a).1 = (acceptEffects st k s ri).1) := by
  unfold respondSwap
  split
  · exact Or.inl rfl
  next s heq =>
  split
  · exact Or.inl rfl
  next _hng =>
  split
  · exact Or.inl rfl
  next hnp =>
  split
  · split
    · exact Or.inl rfl
    next ri heqI =>
    split
    · exact Or.inl rfl
    next _hav =>
    split
    · exact Or.inl rfl
    next _hoff =>
    split
    · exact Or.inl rfl
    next _hpts =>
    exact Or.inr (Or.inr ⟨s, ri, heq, not_not.mp hnp, heqI, rfl⟩)
  · exact Or.inr (Or.inl ⟨s, heq, not_not.mp hnp, rfl⟩)

theorem completeSwap_state_cases (st : EngineState) (k u : Nat) :
    (completeSwap st k u).1 = st ∨
    ∃ s, lookup st.swaps k = some s ∧ s.status = SwapStatus.accepted ∧
      (completeSwap st k u).1 = (completeEffects st k s).1 := by
  unfold completeSwap
  split
  · exact Or.inl rfl
  next s heq =>
  split
  · exact Or.inl rfl
  next _hng =>
  split
  · exact Or.inl rfl
  next hna =>
  exact Or.inr ⟨s, heq, not_not.mp hna, rfl⟩

theorem cancelSwap_state_cases (st : EngineState) (k u : Nat) :
    (cancelSwap st k u).1 = st ∨
    ∃ s, lookup st.swaps k = some s ∧ s.status = SwapStatus.pending ∧
      (cancelSwap st k u).1 =
        { st with swaps := setEntry st.swaps k (updateStatus s SwapStatus.cancelled st.now) } := by
  unfold cancelSwap
  split
  · exact Or.inl rfl
  next s heq =>
  split
  · exact Or.inl rfl
  next _hng =>
  split
  · exact Or.inl rfl
  next hnp =>
  exact Or.inr ⟨s, heq, not_not.mp hnp, rfl⟩

/-! ### Availability monotonicity of the item writes -/

theorem lookup_avail_setEntry {l : List (Nat × ItemRec)} {key j : Nat} {v it : ItemRec}
    (hv : ¬ v.status = ItemStatus.available)
    (h : lookup (setEntry l key v) j = some it) (hav : it.status = ItemStatus.available) :
    lookup l j = some it ∧ j ≠ key := by
  rw [lookup_setEntry] at h
  by_cases hj : j = key
  · rw [if_pos hj] at h
    rcases Option.map_eq_some'.mp h with ⟨d, _hd, hfa⟩
    exact absurd (hfa ▸ hav) hv
  · rw [if_neg hj] at h
    exact ⟨h, hj⟩

theorem acceptEffects_items_cases (st : EngineState) (k : Nat) (s : SwapRec) (ri : ItemRec) :
    (acceptEffects st k s ri).1.items =
      setEntry st.items s.requestedItem { ri with status := ItemStatus.reserved } ∨
    ∃ (oid : Nat) (d : ItemRec), (acceptEffects st k s ri).1.items =
      setEntry (setEntry st.items s.requestedItem { ri with status := ItemStatus.reserved }) oid
        { d with status := ItemStatus.reserved } := by
  cases hty : s.type with
  | points => exact Or.inl (acceptEffects_points_items st k s ri hty)
  | direct =>
    unfold acceptEffects
    dsimp only
    simp only [hty]
    simp only [beq_self_eq_true, if_true, reduceIte]
    split
    · simp_all
    · cases ho : s.offeredItem with
      | none => exact Or.inl (by trivial)
      | some oid =>
        simp only [ho]
        cases hL : lookup (setEntry st.items s.requestedItem { ri with status := ItemStatus.reserved })
            oid with
        | none =>
          simp only [hL]
          exact Or.inl (by trivial)
        | some offDoc =>
          simp only [hL]
          exact Or.inr ⟨oid, offDoc, rfl⟩

theorem acceptEffects_avail_mono (st : EngineState) (k : Nat) (s : SwapRec) (ri : ItemRec) :
    ∀ j it, lookup (acceptEffects st k s ri).1.items j = some it →
      it.status = ItemStatus.available → lookup st.items j = some it ∧ j ≠ s.requestedItem := by
  intro j it hit hav
  rcases acceptEffects_items_cases st k s ri with hC | ⟨oid, d, hC⟩
  · rw [hC] at hit
    exact lookup_avail_setEntry (by simp) hit hav
  · rw [hC] at hit
    have h1 := lookup_avail_setEntry (by simp) hit hav
    exact lookup_avail_setEntry (by simp) h1.1 hav

theorem completeItemsPhase_items_cases (st : EngineState) (s : SwapRec) :
    (completeItemsPhase st s).1.items = st.items ∨
    (∃ (k1 : Nat) (d1 : ItemRec), (completeItemsPhase st s).1.items =
      setEntry st.items k1 { d1 with status := ItemStatus.swapped }) ∨
    (∃ (k1 : Nat) (d1 : ItemRec) (k2 : Nat) (d2 : ItemRec), (completeItemsPhase st s).1.items =
      setEntry (setEntry st.items k1 { d1 with status := ItemStatus.swapped }) k2
        { d2 with status := ItemStatus.swapped }) := by
  unfold completeItemsPhase completeOfferedPhase
  repeat' split
  all_goals first
    | exact Or.inl rfl
    | exact Or.inr (Or.inl ⟨_, _, rfl⟩)
    | exact Or.inr (Or.inr ⟨_, _, _, _, rfl⟩)

theorem completeEffects_items_eq (st : EngineState) (k : Nat) (s : SwapRec) :
    (completeEffects st k s).1.items =
      (completeItemsPhase
        { st with swaps := setEntry st.swaps k (updateStatus s SwapStatus.completed st.now) } s).1.items := by
  unfold completeEffects
  split
  · next st3 e heq =>
    have h2 : (completeItemsPhase
        { st with swaps := setEntry st.swaps k (updateStatus s SwapStatus.completed st.now) } s).1.items
        = st3.items := by
      rw [heq]
    exact h2.symm
  · next st3 heq =>
    rw [completeUserPhase_items]
    have h2 : (completeItemsPhase
        { st with swaps := setEntry st.swaps k (updateStatus s SwapStatus.completed st.now) } s).1.items
        = st3.items := by
      rw [heq]
    exact h2.symm

theorem completeEffects_avail_mono (st : EngineState) (k : Nat) (s : SwapRec) :
    ∀ j it, lookup (completeEffects st k s).1.items j = some it →
      it.status = ItemStatus.available → lookup st.items j = some it := by
  intro j it hit hav
  rw [completeEffects_items_eq] at hit
  rcases completeItemsPhase_items_cases
      { st with swaps := setEntry st.swaps k (updateStatus s SwapStatus.completed st.now) } s with
    hC | ⟨k1, d1, hC⟩ | ⟨k1, d1, k2, d2, hC⟩
  · rw [hC] at hit
    exact hit
  · rw [hC] at hit
    exact (lookup_avail_setEntry (by simp) hit hav).1
  · rw [hC] at hit
    have h1 := lookup_avail_setEntry (by simp) hit hav
    exact (lookup_avail_setEntry (by simp) h1.1 hav).1

theorem completeOfferedPhase_nextId (st : EngineState) (s : SwapRec) :
    (completeOfferedPhase st s).1.nextId = st.nextId := by
  unfold completeOfferedPhase
  repeat' split
  all_goals rfl

theorem completeItemsPhase_nextId (st : EngineState) (s : SwapRec) :
    (completeItemsPhase st s).1.nextId = st.nextId := by
  unfold completeItemsPhase
  split
  · rfl
  · rw [completeOfferedPhase_nextId]

theorem completePointsPhase_nextId (st : EngineState) (s : SwapRec) (ow : UserRec) :
    (completePointsPhase st s ow).1.nextId = st.nextId := by
  unfold completePointsPhase
  repeat' split
  all_goals rfl

theorem completeOwnerPhase_nextId (st : EngineState) (s : SwapRec) (owF : Option UserRec) :
    (completeOwnerPhase st s owF).1.nextId = st.nextId := by
  unfold completeOwnerPhase
  repeat' split
  all_goals first
    | rfl
    | rw [completePointsPhase_nextId]

theorem completeUserPhase_nextId (st : EngineState) (s : SwapRec) :
    (completeUserPhase st s).1.nextId = st.nextId := by
  unfold completeUserPhase
  repeat' split
  all_goals first
    | rfl
    | rw [completeOwnerPhase_nextId]

theorem completeEffects_nextId (st : EngineState) (k : Nat) (s : SwapRec) :
    (completeEffects st k s).1.nextId = st.nextId := by
  unfold completeEffects
  split
  · next st3 e heq =>
    have h2 : (completeItemsPhase
        { st with swaps := setEntry st.swaps k (updateStatus s SwapStatus.completed st.now) } s).1.nextId
        = st3.nextId := by
      rw [heq]
    rw [← h2, completeItemsPhase_nextId]
  · next st3 heq =>
    rw [completeUserPhase_nextId]
    have h2 : (completeItemsPhase
        { st with swaps := setEntry st.swaps k (updateStatus s SwapStatus.completed st.now) } s).1.nextId
        = st3.nextId := by
      rw [heq]
    rw [← h2, completeItemsPhase_nextId]

/-! ### The active-swap uniqueness invariant -/

theorem swapInv_of_parts (st st2 : EngineState) (k : Nat) (s v : SwapRec)
    (hInv : SwapInv st) (hs : lookup st.swaps k = some s)
    (hsw : st2.swaps = setEntry st.swaps k v)
    (hnext : st2.nextId = st.nextId)
    (hreq : v.requester = s.requester) (hitem : v.requestedItem = s.requestedItem)
    (hact : v.status = SwapStatus.pending ∨ v.status = SwapStatus.accepted →
        s.status = SwapStatus.pending ∨ s.status = SwapStatus.accepted)
    (hmono : ∀ j it, lookup st2.items j = some it → it.status = ItemStatus.available →
        lookup st.items j = some it)
    (hvacc : v.status = SwapStatus.accepted →
        ∀ it, lookup st2.items v.requestedItem = some it → it.status ≠ ItemStatus.available) :
    SwapInv st2 := by
  constructor
  · show (st2.swaps.map Prod.fst).Nodup
    rw [hsw, map_fst_setEntry]
    exact hInv.nodup
  · intro p hp
    rw [hsw] at hp
    rw [hnext]
    rcases mem_setEntry hp with h1 | h1
    · exact hInv.bounded p h1
    · subst h1
      exact hInv.bounded (k, s) (lookup_mem hs)
  · intro r i
    show st2.swaps.countP (fun p => activeFor p r i) ≤ 1
    rw [hsw]
    refine le_trans (countP_setEntry_le st.swaps k v _ ?hq) (hInv.uniq r i)
    intro p hp hpk hq
    have hps := lookup_key_unique hInv.nodup hs p hp hpk
    rcases p with ⟨pk, ps⟩
    simp only at hps
    subst hps
    simp only [activeFor, Bool.and_eq_true, Bool.or_eq_true, beq_iff_eq] at hq ⊢
    obtain ⟨⟨hq1, hq2⟩, hq3⟩ := hq
    refine ⟨⟨?e1, ?e2⟩, hact hq3⟩
    · rw [← hreq]; exact hq1
    · rw [← hitem]; exact hq2
  · intro p hp hacc it hit
    intro hav
    have hm := hmono _ _ hit hav
    rw [hsw] at hp
    rcases mem_setEntry hp with h1 | h1
    · exact hInv.accItem p h1 hacc it hm hav
    · subst h1
      exact hvacc hacc it hit hav

theorem swapInv_respond (st : EngineState) (k u : Nat) (a : Bool) (hInv : SwapInv st) :
    SwapInv (respondSwap st k u a).1 := by
  rcases respondSwap_state_cases st k u a with hC | ⟨s, hs, hpend, hC⟩ | ⟨s, ri, hs, hpend, hri, hC⟩
  · rw [hC]
    exact hInv
  · rw [hC]
    refine swapInv_of_parts st _ k s (updateStatus s SwapStatus.rejected st.now) hInv hs rfl rfl
      (updateStatus_requester s _ _) (updateStatus_requestedItem s _ _) ?_ ?_ ?_
    · intro h
      simp only [updateStatus_status] at h
      rcases h with h | h <;> cases h
    · intro j it h1 _h2
      exact h1
    · intro h
      simp only [updateStatus_status] at h
      cases h
  · rw [hC]
    refine swapInv_of_parts st _ k s (updateStatus s SwapStatus.accepted st.now) hInv hs
      (acceptEffects_swaps st k s ri) (acceptEffects_nextId st k s ri)
      (updateStatus_requester s _ _) (updateStatus_requestedItem s _ _) ?_ ?_ ?_
    · intro _
      exact Or.inl hpend
    · intro j it h1 h2
      exact (acceptEffects_avail_mono st k s ri j it h1 h2).1
    · intro _ it hit hav
      have hm := acceptEffects_avail_mono st k s ri _ it hit hav
      exact hm.2 (updateStatus_requestedItem s _ _)

theorem swapInv_complete (st : EngineState) (k u : Nat) (hInv : SwapInv st) :
    SwapInv (completeSwap st k u).1 := by
  rcases completeSwap_state_cases st k u with hC | ⟨s, hs, _hacc, hC⟩
  · rw [hC]
    exact hInv
  · rw [hC]
    refine swapInv_of_parts st _ k s (updateStatus s SwapStatus.completed st.now) hInv hs
      (completeEffects_swaps st k s) (completeEffects_nextId st k s)
      (updateStatus_requester s _ _) (updateStatus_requestedItem s _ _) ?_ ?_ ?_
    · intro h
      simp only [updateStatus_status] at h
      rcases h with h | h <;> cases h
    · intro j it h1 h2
      exact completeEffects_avail_mono st k s j it h1 h2
    · intro h
      simp only [updateStatus_status] at h
      cases h

theorem swapInv_cancel (st : EngineState) (k u : Nat) (hInv : SwapInv st) :
    SwapInv (cancelSwap st k u).1 := by
  rcases cancelSwap_state_cases st k u with hC | ⟨s, hs, _hpend, hC⟩
  · rw [hC]
    exact hInv
  · rw [hC]
    refine swapInv_of_parts st _ k s (updateStatus s SwapStatus.cancelled st.now) hInv hs rfl rfl
      (updateStatus_requester s _ _) (updateStatus_requestedItem s _ _) ?_ ?_ ?_
    · intro h
      simp only [updateStatus_status] at h
      rcases h with h | h <;> cases h
    · intro j it h1 _h2
      exact h1
    · intro h
      simp only [updateStatus_status] at h
      cases h

theorem swapInv_create (st : EngineState) (r : Nat) (ty : SwapType) (i : Nat)
    (oi po : Option Nat) (hInv : SwapInv st) :
    SwapInv (createSwap st r ty i oi po).1 := by
  rcases createSwap_state_cases st r ty i oi po with hC |
    ⟨reqDoc, x, hC, heqI, havail, hdup, hx1, hx2, hx3, _hpre⟩
  · rw [hC]
    exact hInv
  · rw [hC]
    constructor
    · show ((st.swaps ++ [(st.nextId, x)]).map Prod.fst).Nodup
      rw [List.map_append, List.nodup_append]
      refine ⟨hInv.nodup, List.nodup_singleton _, ?dis⟩
      intro b hb hb2
      simp only [List.map_cons, List.map_nil, List.mem_singleton] at hb2
      subst hb2
      rcases List.mem_map.mp hb with ⟨p, hp, hfp⟩
      have hlt := hInv.bounded p hp
      omega
    · intro p hp
      rcases List.mem_append.mp hp with h1 | h1
      · exact Nat.lt_succ_of_lt (hInv.bounded p h1)
      · simp only [List.mem_singleton] at h1
        subst h1
        exact Nat.lt_succ_self _
    · intro a b
      show ((st.swaps ++ [(st.nextId, x)]).countP (fun p => activeFor p a b)) ≤ 1
      rw [List.countP_append]
      by_cases hax : activeFor (st.nextId, x) a b = true
      · have hx : x.requester = a ∧ x.requestedItem = b := by
          simp only [activeFor, Bool.and_eq_true, beq_iff_eq] at hax
          exact ⟨hax.1.1, hax.1.2⟩
        have hra : r = a := hx1 ▸ hx.1
        have hib : i = b := hx2 ▸ hx.2
        subst hra
        subst hib
        have h0 : st.swaps.countP (fun p => activeFor p r i) = 0 := by
          rw [List.countP_eq_zero]
          intro p hp hpact
          simp only [activeFor, Bool.and_eq_true, Bool.or_eq_true, beq_iff_eq] at hpact
          obtain ⟨⟨hp1, hp2⟩, hp3⟩ := hpact
          rcases hp3 with hp3 | hp3
          · have hdt : hasPendingDuplicate st r i = true := by
              unfold hasPendingDuplicate
              rw [List.any_eq_true]
              refine ⟨p, hp, ?pred⟩
              simp only [Bool.and_eq_true, beq_iff_eq]
              exact ⟨⟨hp1, hp2⟩, hp3⟩
            rw [hdup] at hdt
            cases hdt
          · have h2 := hInv.accItem p hp hp3 reqDoc (by rw [hp2]; exact heqI)
            exact h2 havail
        rw [h0]
        simp [List.countP_cons, hax]
      · have h1 : List.countP (fun p => activeFor p a b) [(st.nextId, x)] = 0 := by
          simp [List.countP_cons, hax]
        rw [h1]
        simpa using hInv.uniq a b
    · intro p hp hacc it hit
      rcases List.mem_append.mp hp with h1 | h1
      · exact hInv.accItem p h1 hacc it hit
      · simp only [List.mem_singleton] at h1
        subst h1
        rw [hx3] at hacc
        cases hacc

theorem swapInv_applyOp (st : EngineState) (op : EngineOp) (hInv : SwapInv st) :
    SwapInv (applyOp st op).1 := by
  cases op with
  | create r ty i oi po => exact swapInv_create st r ty i oi po hInv
  | respond k u a => exact swapInv_respond st k u a hInv
  | complete k u => exact swapInv_complete st k u hInv
  | cancel k u => exact swapInv_cancel st k u hInv

theorem swapInv_runOps (st : EngineState) (ops : List EngineOp) (hInv : SwapInv st) :
    SwapInv (runOps st ops) := by
  induction ops generalizing st with
  | nil => exact hInv
  | cons op rest ih => exact ih _ (swapInv_applyOp st op hInv)

/-! ### No-self-swap preservation -/

theorem swapPreSave_no_self (s : SwapRec) (h : swapPreSave s = none) :
    s.requester ≠ s.owner := by
  unfold swapPreSave at h
  split at h
  · cases h
  · split at h
    · cases h
    · split at h
      · cases h
      · next hne =>
        intro he
        exact hne (by simp [beq_iff_eq, he])

theorem noSelfSwaps_setEntry {st : EngineState} {k : Nat} {s : SwapRec} (ns : SwapStatus)
    (now : Nat) (h : noSelfSwaps st) (hs : lookup st.swaps k = some s) :
    ∀ p ∈ setEntry st.swaps k (updateStatus s ns now), p.2.requester ≠ p.2.owner := by
  intro p hp
  rcases mem_setEntry hp with h1 | h1
  · exact h p h1
  · subst h1
    simp only [updateStatus_requester, updateStatus_owner]
    exact h (k, s) (lookup_mem hs)

theorem noSelfSwaps_applyOp (st : EngineState) (op : EngineOp) (h : noSelfSwaps st) :
    noSelfSwaps (applyOp st op).1 := by
  cases op with
  | create r ty i oi po =>
    show noSelfSwaps (createSwap st r ty i oi po).1
    rcases createSwap_state_cases st r ty i oi po with hC |
      ⟨reqDoc, x, hC, _h1, _h2, _h3, _h4, _h5, _h6, hpre⟩
    · rw [hC]
      exact h
    · rw [hC]
      intro p hp
      rcases List.mem_append.mp hp with h1 | h1
      · exact h p h1
      · simp only [List.mem_singleton] at h1
        subst h1
        exact swapPreSave_no_self x hpre
  | respond k u a =>
    show noSelfSwaps (respondSwap st k u a).1
    rcases respondSwap_state_cases st k u a with hC | ⟨s, hs, _, hC⟩ | ⟨s, ri, hs, _, _, hC⟩
    · rw [hC]
      exact h
    · rw [hC]
      intro p hp
      exact noSelfSwaps_setEntry SwapStatus.rejected st.now h hs p hp
    · rw [hC]
      intro p hp
      rw [acceptEffects_swaps] at hp
      exact noSelfSwaps_setEntry SwapStatus.accepted st.now h hs p hp
  | complete k u =>
    show noSelfSwaps (completeSwap st k u).1
    rcases completeSwap_state_cases st k u with hC | ⟨s, hs, _, hC⟩
    · rw [hC]
      exact h
    · rw [hC]
      intro p hp
      rw [completeEffects_swaps] at hp
      exact noSelfSwaps_setEntry SwapStatus.completed st.now h hs p hp
  | cancel k u =>
    show noSelfSwaps (cancelSwap st k u).1
    rcases cancelSwap_state_cases st k u with hC | ⟨s, hs, _, hC⟩
    · rw [hC]
      exact h
    · rw [hC]
      intro p hp
      exact noSelfSwaps_setEntry SwapStatus.cancelled st.now h hs p hp

theorem noSelfSwaps_runOps (st : EngineState) (ops : List EngineOp) (h : noSelfSwaps st) :
    noSelfSwaps (runOps st ops) := by
  induction ops generalizing st with
  | nil => exact h
  | cons op rest ih => exact ih _ (noSelfSwaps_applyOp st op h)

/-! ### Accepted swaps only move forward to completed -/

theorem applyOp_accepted_forward (st : EngineState) (op : EngineOp) (k : Nat) (s s2 : SwapRec)
    (hs : lookup st.swaps k = some s) (hacc : s.status = SwapStatus.accepted)
    (hs2 : lookup ((applyOp st op).1).swaps k = some s2) :
    s2.status = SwapStatus.accepted ∨ s2.status = SwapStatus.completed := by
  cases op with
  | create r ty i oi po =>
    replace hs2 : lookup ((createSwap st r ty i oi po).1).swaps k = some s2 := hs2
    rcases createSwap_state_cases st r ty i oi po with hC | ⟨reqDoc, x, hC, _⟩
    · rw [hC, hs] at hs2
      cases hs2
      exact Or.inl hacc
    · rw [hC] at hs2
      have h3 := lookup_append_of_some [(st.nextId, x)] hs
      rw [h3] at hs2
      cases hs2
      exact Or.inl hacc
  | respond kk u a =>
    replace hs2 : lookup ((respondSwap st kk u a).1).swaps k = some s2 := hs2
    rcases respondSwap_state_cases st kk u a with hC | ⟨s3, hs3, hpend, hC⟩ |
      ⟨s3, ri, hs3, hpend, hri, hC⟩
    · rw [hC, hs] at hs2
      cases hs2
      exact Or.inl hacc
    · rw [hC] at hs2
      simp only [lookup_setEntry] at hs2
      by_cases hkk : k = kk
      · subst hkk
        rw [hs] at hs3
        cases hs3
        rw [hacc] at hpend
        cases hpend
      · rw [if_neg hkk] at hs2
        rw [hs] at hs2
        cases hs2
        exact Or.inl hacc
    · rw [hC] at hs2
      rw [acceptEffects_swaps] at hs2
      simp only [lookup_setEntry] at hs2
      by_cases hkk : k = kk
      · subst hkk
        rw [hs] at hs3
        cases hs3
        rw [hacc] at hpend
        cases hpend
      · rw [if_neg hkk] at hs2
        rw [hs] at hs2
        cases hs2
        exact Or.inl hacc
  | complete kk u =>
    replace hs2 : lookup ((completeSwap st kk u).1).swaps k = some s2 := hs2
    rcases completeSwap_state_cases st kk u with hC | ⟨s3, hs3, hacc3, hC⟩
    · rw [hC, hs] at hs2
      cases hs2
      exact Or.inl hacc
    · rw [hC] at hs2
      rw [completeEffects_swaps] at hs2
      simp only [lookup_setEntry] at hs2
      by_cases hkk : k = kk
      · subst hkk
        rw [hs3] at hs2
        simp only [Option.map_some'] at hs2
        cases hs2
        exact Or.inr (updateStatus_status s3 _ _)
      · rw [if_neg hkk] at hs2
        rw [hs] at hs2
        cases hs2
        exact Or.inl hacc
  | cancel kk u =>
    replace hs2 : lookup ((cancelSwap st kk u).1).swaps k = some s2 := hs2
    rcases cancelSwap_state_cases st kk u with hC | ⟨s3, hs3, hpend, hC⟩
    · rw [hC, hs] at hs2
      cases hs2
      exact Or.inl hacc
    · rw [hC] at hs2
      simp only [lookup_setEntry] at hs2
      by_cases hkk : k = kk
      · subst hkk
        rw [hs] at hs3
        cases hs3
        rw [hacc] at hpend
        cases hpend
      · rw [if_neg hkk] at hs2
        rw [hs] at hs2
        cases hs2
        exact Or.inl hacc

/-! ### The TTL sweep -/

theorem reap_idem (st : EngineState) : reap (reap st) = reap st := by
  unfold reap
  simp only [List.filter_filter]
  congr 1
  apply List.filter_congr
  intro p _
  rw [Bool.and_self]

theorem reap_mem_iff (st : EngineState) (p : Nat × SwapRec) :
    p ∈ (reap st).swaps ↔ p ∈ st.swaps ∧
      ¬(p.2.status = SwapStatus.pending ∧ p.2.expiresAt ≤ st.now) := by
  unfold reap reapKeep
  simp [List.mem_filter, Bool.and_eq_true, beq_iff_eq, decide_eq_true_eq, not_and]
  tauto

theorem reap_frame (st : EngineState) :
    (reap st).users = st.users ∧ (reap st).items = st.items ∧
    (reap st).legacy = st.legacy ∧ (reap st).now = st.now ∧
    (reap st).nextId = st.nextId :=
  ⟨rfl, rfl, rfl, rfl, rfl⟩

/-! ### Create inversions -/

theorem createSwap_success_inv (st : EngineState) (r : Nat) (ty : SwapType) (i : Nat)
    (oi po : Option Nat) (h : (createSwap st r ty i oi po).2 = none) :
    ∃ reqDoc, lookup st.items i = some reqDoc ∧ reqDoc.status = ItemStatus.available ∧
      reqDoc.owner ≠ r ∧
      (match ty with
       | SwapType.direct => directChecks st r oi
       | SwapType.points => pointsChecks st r reqDoc po) = none ∧
      hasPendingDuplicate st r i = false := by
  unfold createSwap at h
  dsimp only at h
  split at h
  · cases h
  next reqDoc heqI =>
  split at h
  · cases h
  next hna =>
  split at h
  · cases h
  next hno =>
  split at h
  · cases h
  next heqTy =>
  split at h
  · cases h
  next hdup =>
  split at h
  · cases h
  next _heqPre =>
  exact ⟨reqDoc, heqI, not_not.mp hna, hno, heqTy, eq_false_of_ne_true hdup⟩

theorem createSwap_dup (st : EngineState) (r : Nat) (ty : SwapType) (i : Nat)
    (oi po : Option Nat) (reqDoc : ItemRec)
    (hI : lookup st.items i = some reqDoc) (hav : reqDoc.status = ItemStatus.available)
    (hno : reqDoc.owner ≠ r)
    (hty : (match ty with
            | SwapType.direct => directChecks st r oi
            | SwapType.points => pointsChecks st r reqDoc po) = none)
    (hdup : hasPendingDuplicate st r i = true) :
    createSwap st r ty i oi po = (st, some SwapError.duplicateActiveSwap) := by
  unfold createSwap
  simp [hI, hav, hno, hty, hdup]

theorem pointsChecks_success (st : EngineState) (r : Nat) (reqDoc : ItemRec) (po : Nat)
    (ur : UserRec) (hur : lookup st.users r = some ur)
    (h : pointsChecks st r reqDoc (some po) = none) :
    (po : Int) ≤ ur.points ∧ reqDoc.pointValue ≤ po := by
  unfold pointsChecks at h
  simp only [hur] at h
  split at h
  · cases h
  next _hz =>
  split at h
  · cases h
  next hlt =>
  split at h
  · cases h
  next hmin =>
  constructor
  · simp only [Option.getD_some] at hlt
    omega
  · simp only [Option.getD_some] at hmin
    omega

/-! ### Complete result lemmas -/

theorem completeEffects_points_ok (st : EngineState) (k : Nat) (s : SwapRec) (ri : ItemRec)
    (ur ow : UserRec)
    (hty : s.type = SwapType.points)
    (hri : lookup st.items s.requestedItem = some ri)
    (hur : lookup st.users s.requester = some ur)
    (how : lookup st.users s.owner = some ow)
    (h1 : 0 ≤ ur.points) (h2 : 0 ≤ ow.points) :
    completeEffects st k s =
      ({ st with
          swaps := setEntry st.swaps k (updateStatus s SwapStatus.completed st.now),
          items := setEntry st.items s.requestedItem { ri with status := ItemStatus.swapped },
          users := setEntry (setEntry st.users s.requester (updateStats ur StatType.itemSwapped 1)) s.owner (updateStats (updateStats ow StatType.itemSwapped 1) StatType.pointsEarned (s.pointsOffered.getD 0)) }, none) := by
  unfold completeEffects
  rw [completeItemsPhase_points _ _ ri hty (by exact hri)]
  dsimp only
  rw [completeUserPhase_points_ok _ _ ur ow hty (by exact hur) (by exact how) h1 h2]

theorem completeEffects_direct_ok (st : EngineState) (k : Nat) (s : SwapRec) (ri : ItemRec)
    (oid : Nat) (oi2 : ItemRec) (ur ow : UserRec)
    (hty : s.type = SwapType.direct) (ho : s.offeredItem = some oid)
    (hri : lookup st.items s.requestedItem = some ri)
    (hoi : lookup (setEntry st.items s.requestedItem { ri with status := ItemStatus.swapped }) oid
        = some oi2)
    (hur : lookup st.users s.requester = some ur)
    (how : lookup st.users s.owner = some ow)
    (h1 : 0 ≤ ur.points) (h2 : 0 ≤ ow.points) :
    completeEffects st k s =
      ({ st with
          swaps := setEntry st.swaps k (updateStatus s SwapStatus.completed st.now),
          items := setEntry (setEntry st.items s.requestedItem { ri with status := ItemStatus.swapped }) oid { oi2 with status := ItemStatus.swapped },
          users := setEntry (setEntry st.users s.requester (updateStats ur StatType.itemSwapped 1)) s.owner (updateStats ow StatType.itemSwapped 1) }, none) := by
  unfold completeEffects
  rw [completeItemsPhase_direct _ _ ri oid oi2 hty ho (by exact hri) (by exact hoi)]
  dsimp only
  rw [completeUserPhase_direct_ok _ _ ur ow hty (by exact hur) (by exact how) h1 h2]

/-! ### Concrete demonstration states -/

/-! ### Claims -/

/-- C8 (amended): the TTL index deletes every pending swap whose
expiresAt has passed, rather than transitioning it to cancelled; the
swap does not remain in the store's history.  Deletion touches nothing
else, and running the sweep twice in immediate succession produces the
same final state as running it once. -/
theorem C8_reap_deletes_expired :
    (∀ st : EngineState, reap (reap st) = reap st) ∧
    (∀ (st : EngineState) (p : Nat × SwapRec),
      p ∈ (reap st).swaps ↔ p ∈ st.swaps ∧
        ¬(p.2.status = SwapStatus.pending ∧ p.2.expiresAt ≤ st.now)) ∧
    (∀ st : EngineState,
      (reap st).users = st.users ∧ (reap st).items = st.items ∧
      (reap st).legacy = st.legacy ∧ (reap st).now = st.now) :=
  ⟨reap_idem, reap_mem_iff, fun st =>
    ⟨(reap_frame st).1, (reap_frame st).2.1, (reap_frame st).2.2.1, (reap_frame st).2.2.2.1⟩⟩

/-- C8 counterexample to the claim as stated: demoExpired holds a
pending swap (id 0) past its expiresAt; after the sweep the record is
gone from the store — it is not retained with status cancelled. -/
theorem C8_counterexample :
    (∃ s, lookup demoExpired.swaps 0 = some s ∧ s.status = SwapStatus.pending ∧
      s.expiresAt ≤ demoExpired.now) ∧
    lookup (reap demoExpired).swaps 0 = none := by
  constructor
  · refine ⟨_, rfl, ?h1, ?h2⟩ <;> decide
  · decide

/-- C10: the model layer's pre-save validation refuses any swap whose
requester equals its owner, so every successfully saved swap satisfies
requester ≠ owner, and the property is preserved by every sequence of
engine commands. -/
theorem C10_no_self_swap_persisted :
    (∀ s : SwapRec, swapPreSave s = none → s.requester ≠ s.owner) ∧
    (∀ (st : EngineState) (ops : List EngineOp),
      noSelfSwaps st → noSelfSwaps (runOps st ops)) :=
  ⟨swapPreSave_no_self, noSelfSwaps_runOps⟩

/-- C10 witness: the pre-save hook passes the demo swap record of two
distinct parties, and the no-self-swap property survives the demo
trace. -/
theorem C10_witness :
    demoPoorSwap.requester ≠ demoPoorSwap.owner ∧
    noSelfSwaps (runOps demoState demoOps) := by
  constructor
  · exact C10_no_self_swap_persisted.1 demoPoorSwap (by decide)
  · exact C10_no_self_swap_persisted.2 demoState demoOps (by unfold noSelfSwaps; decide)

/-- C2: along any interleaving-free sequence of engine commands, no
stored balance ever goes negative, and the one debit site — the accept
re-check of respond — fails with InsufficientBalance and leaves the
whole state unchanged whenever the debit would overdraw the
requester. -/
theorem C2_balances_never_negative :
    (∀ (st : EngineState) (ops : List EngineOp),
      balancesNonneg st → balancesNonneg (runOps st ops)) ∧
    (∀ (st : EngineState) (k : Nat) (s : SwapRec) (ri : ItemRec) (ur : UserRec) (po : Nat),
      lookup st.swaps k = some s → s.type = SwapType.points →
      s.status = SwapStatus.pending → s.pointsOffered = some po →
      lookup st.items s.requestedItem = some ri → ri.status = ItemStatus.available →
      lookup st.users s.requester = some ur → ur.points < (po : Int) →
      respondSwap st k s.owner true = (st, some SwapError.insufficientBalance)) := by
  constructor
  · exact balancesNonneg_runOps
  · intro st k s ri ur po hs hty hpend hpo hri hav hur hlt
    refine respondSwap_pointsErr st k s ri SwapError.insufficientBalance hs hpend hri hav
      (offeredRecheck_of_points st s hty) ?hins
    refine pointsRecheck_of_insolvent st s ur hty hur ?hlt2
    unfold poInt
    rw [hpo]
    exact hlt

/-- C2 witness: the demo trace keeps every balance non-negative, and
accepting the underfunded swap of demoPoorState fails with
InsufficientBalance leaving the state unchanged. -/
theorem C2_witness :
    balancesNonneg (runOps demoState demoOps) ∧
    respondSwap demoPoorState 0 2 true = (demoPoorState, some SwapError.insufficientBalance) := by
  constructor
  · exact C2_balances_never_negative.1 demoState demoOps (by unfold balancesNonneg; decide)
  · exact C2_balances_never_negative.2 demoPoorState 0 demoPoorSwap demoItemX demoPoorUser 100
      (by decide) rfl rfl rfl (by decide) rfl (by decide) (by decide)

/-- The invariant bundle holds in the empty-store demo state. -/
theorem swapInv_demoState : SwapInv demoState := by
  constructor
  · show (demoState.swaps.map Prod.fst).Nodup
    decide
  · intro p hp
    cases hp
  · intro r i
    show demoState.swaps.countP (fun p => activeFor p r i) ≤ 1
    simp [demoState]
  · intro p hp
    cases hp

/-- C3 (amended): from an invariant-satisfying state, at most one swap
in \x7bpending, accepted\x7d exists per (requester, requestedItem) pair
after any sequence of engine commands; create never succeeds while an
active swap for the pair exists; when a pending duplicate exists and
the item and type checks pass, the failure is DuplicateActiveSwap —
but an accepted duplicate surfaces as the requested item being
unavailable instead. -/
theorem C3_unique_active_swap :
    (∀ (st : EngineState) (ops : List EngineOp),
      SwapInv st → uniqueActive (runOps st ops)) ∧
    (∀ (st : EngineState) (r : Nat) (ty : SwapType) (i : Nat) (oi po : Option Nat),
      SwapInv st → (createSwap st r ty i oi po).2 = none →
      ∀ p ∈ st.swaps, activeFor p r i = false) ∧
    (∀ (st : EngineState) (r : Nat) (ty : SwapType) (i : Nat) (oi po : Option Nat)
      (reqDoc : ItemRec),
      lookup st.items i = some reqDoc → reqDoc.status = ItemStatus.available →
      reqDoc.owner ≠ r →
      (match ty with
       | SwapType.direct => directChecks st r oi
       | SwapType.points => pointsChecks st r reqDoc po) = none →
      hasPendingDuplicate st r i = true →
      createSwap st r ty i oi po = (st, some SwapError.duplicateActiveSwap)) := by
  refine ⟨?one, ?two, ?three⟩
  · intro st ops hInv
    exact (swapInv_runOps st ops hInv).uniq
  · intro st r ty i oi po hInv hok p hp
    rcases createSwap_success_inv st r ty i oi po hok with ⟨reqDoc, heqI, hav, _hno, _hty, hdup⟩
    apply eq_false_of_ne_true
    intro hact
    simp only [activeFor, Bool.and_eq_true, Bool.or_eq_true, beq_iff_eq] at hact
    obtain ⟨⟨hp1, hp2⟩, hp3⟩ := hact
    rcases hp3 with hp3 | hp3
    · have hdt : hasPendingDuplicate st r i = true := by
        unfold hasPendingDuplicate
        rw [List.any_eq_true]
        refine ⟨p, hp, ?pred⟩
        simp only [Bool.and_eq_true, beq_iff_eq]
        exact ⟨⟨hp1, hp2⟩, hp3⟩
      rw [hdup] at hdt
      cases hdt
    · exact hInv.accItem p hp hp3 reqDoc (by rw [hp2]; exact heqI) hav
  · intro st r ty i oi po reqDoc hI hav hno hty hdup
    exact createSwap_dup st r ty i oi po reqDoc hI hav hno hty hdup

/-- C3 witness: the invariant is maintained over the demo trace, and
re-filing the pending demo swap fails with DuplicateActiveSwap. -/
theorem C3_witness :
    (runOps demoState demoOps).swaps.countP (fun p => activeFor p 1 10) ≤ 1 ∧
    createSwap demoPending 1 SwapType.points 10 none (some 100) =
      (demoPending, some SwapError.duplicateActiveSwap) := by
  constructor
  · exact C3_unique_active_swap.1 demoState demoOps swapInv_demoState 1 10
  · exact C3_unique_active_swap.2.2 demoPending 1 SwapType.points 10 none (some 100) demoItemX
      (by decide) rfl (by decide) (by decide) (by decide)

/-- C3 counterexample to the claim as stated: in demoAccepted an
accepted swap for the pair (requester 1, item 10) exists, yet a fresh
create for the same pair fails with ItemUnavailable, not with
DuplicateActiveSwap. -/
theorem C3_counterexample :
    (∃ s, lookup demoAccepted.swaps 0 = some s ∧ s.requester = 1 ∧ s.requestedItem = 10 ∧
      s.status = SwapStatus.accepted) ∧
    (createSwap demoAccepted 1 SwapType.points 10 none (some 100)).2 =
      some SwapError.itemUnavailable ∧
    (createSwap demoAccepted 1 SwapType.points 10 none (some 100)).2 ≠
      some SwapError.duplicateActiveSwap := by
  refine ⟨⟨_, rfl, ?a, ?b, ?c⟩, ?d, ?e⟩ <;> decide

/-- C4 (amended): among the four engine commands, cancel succeeds only
for the requester on a pending swap, and no command moves an accepted
swap to any status other than accepted or completed; the legacy
status-update handler, however, lets either participant cancel any
non-completed swap, so accepted → cancelled is reachable through it. -/
theorem C4_no_cancel_after_accept :
    (∀ (st : EngineState) (k u : Nat), (cancelSwap st k u).2 = none →
      ∃ s, lookup st.swaps k = some s ∧ s.requester = u ∧ s.status = SwapStatus.pending) ∧
    (∀ (st : EngineState) (op : EngineOp) (k : Nat) (s s2 : SwapRec),
      lookup st.swaps k = some s → s.status = SwapStatus.accepted →
      lookup ((applyOp st op).1).swaps k = some s2 →
      s2.status = SwapStatus.accepted ∨ s2.status = SwapStatus.completed) ∧
    ((statusUpdateSwap demoLegacyAccepted 0 1 SwapStatus.cancelled).2 = none ∧
      (lookup (statusUpdateSwap demoLegacyAccepted 0 1 SwapStatus.cancelled).1.legacy 0).map
        LegacySwap.status = some SwapStatus.cancelled) := by
  refine ⟨cancelSwap_success_inv, applyOp_accepted_forward, ?c, ?d⟩ <;> decide

/-- C4 witness: cancelling the pending demo swap succeeds for its
requester, and a cancel attempt on the accepted demo swap leaves it
accepted. -/
theorem C4_witness :
    (∃ s, lookup demoPending.swaps 0 = some s ∧ s.requester = 1 ∧
      s.status = SwapStatus.pending) ∧
    (demoAcceptedSwap.status = SwapStatus.accepted ∨
      demoAcceptedSwap.status = SwapStatus.completed) := by
  constructor
  · exact C4_no_cancel_after_accept.1 demoPending 0 1 (by decide)
  · exact C4_no_cancel_after_accept.2.1 demoAccepted (EngineOp.cancel 0 1) 0
      demoAcceptedSwap demoAcceptedSwap (by decide) (by decide) (by decide)

/-- C4 counterexample to the claim as stated: the accepted legacy demo
swap is moved to cancelled by the status-update handler of the engine's
route file. -/
theorem C4_counterexample :
    (lookup demoLegacyAccepted.legacy 0).map LegacySwap.status = some SwapStatus.accepted ∧
    (statusUpdateSwap demoLegacyAccepted 0 1 SwapStatus.cancelled).2 = none ∧
    (lookup (statusUpdateSwap demoLegacyAccepted 0 1 SwapStatus.cancelled).1.legacy 0).map
      LegacySwap.status = some SwapStatus.cancelled := by
  refine ⟨?a, ?b, ?c⟩ <;> decide

/-- C1 (amended): for points swaps the ledger transfer happens at
accept, not at complete.  A successful accept debits the requester by
pointsOffered and credits the owner by the same amount, and the balance
re-check lives there: an insolvent requester makes respond fail with
InsufficientBalance, leaving the swap pending and everything unchanged.
A successful complete performs no debit and no balance re-check: it
leaves the requester's balance unchanged and credits the owner an
additional pointsOffered through updateStats("pointsEarned"). -/
theorem C1_points_transfer_at_accept :
    (∀ (st : EngineState) (k : Nat) (s : SwapRec) (ri : ItemRec) (ur ow : UserRec) (po : Nat),
      lookup st.swaps k = some s → s.type = SwapType.points →
      s.status = SwapStatus.pending → s.pointsOffered = some po →
      lookup st.items s.requestedItem = some ri → ri.status = ItemStatus.available →
      lookup st.users s.requester = some ur → lookup st.users s.owner = some ow →
      (po : Int) ≤ ur.points → 0 ≤ ow.points → s.requester ≠ s.owner →
      (respondSwap st k s.owner true).2 = none ∧
      (lookup (respondSwap st k s.owner true).1.users s.requester).map UserRec.points =
        some (ur.points - (po : Int)) ∧
      (lookup (respondSwap st k s.owner true).1.users s.owner).map UserRec.points =
        some (ow.points + (po : Int))) ∧
    (∀ (st : EngineState) (k : Nat) (s : SwapRec) (ri : ItemRec) (ur : UserRec) (po : Nat),
      lookup st.swaps k = some s → s.type = SwapType.points →
      s.status = SwapStatus.pending → s.pointsOffered = some po →
      lookup st.items s.requestedItem = some ri → ri.status = ItemStatus.available →
      lookup st.users s.requester = some ur → ur.points < (po : Int) →
      respondSwap st k s.owner true = (st, some SwapError.insufficientBalance)) ∧
    (∀ (st : EngineState) (k u : Nat) (s : SwapRec) (ri : ItemRec) (ur ow : UserRec) (po : Nat),
      lookup st.swaps k = some s → s.type = SwapType.points →
      s.status = SwapStatus.accepted → s.pointsOffered = some po →
      isParticipant s u = true → lookup st.items s.requestedItem = some ri →
      lookup st.users s.requester = some ur → lookup st.users s.owner = some ow →
      0 ≤ ur.points → 0 ≤ ow.points → s.requester ≠ s.owner →
      (completeSwap st k u).2 = none ∧
      (lookup (completeSwap st k u).1.users s.requester).map UserRec.points = some ur.points ∧
      (lookup (completeSwap st k u).1.users s.owner).map UserRec.points =
        some (ow.points + (po : Int))) := by
  refine ⟨?one, ?two, ?three⟩
  · intro st k s ri ur ow po hs hty hpend hpo hri hav hur how hge hownn hneq
    have hrun := respondSwap_accept_run st k s ri hs hpend hri hav
      (offeredRecheck_of_points st s hty)
      (pointsRecheck_of_solvent st s ur hty hur (by unfold poInt; rw [hpo]; exact hge))
    rw [hrun]
    have hres := acceptEffects_points_result st k s ri ur ow hty hur how
      (by unfold poInt; rw [hpo]; simp; omega) (by unfold poInt; rw [hpo]; simp; omega)
    refine ⟨hres.2, ?req, ?own⟩
    · rw [hres.1, lookup_setEntry, if_neg hneq, lookup_setEntry, if_pos rfl, hur]
      simp [poInt, hpo]
    · rw [hres.1, lookup_setEntry, if_pos rfl, lookup_setEntry,
        if_neg (fun h => hneq h.symm), how]
      simp [poInt, hpo]
  · intro st k s ri ur po hs hty hpend hpo hri hav hur hlt
    refine respondSwap_pointsErr st k s ri SwapError.insufficientBalance hs hpend hri hav
      (offeredRecheck_of_points st s hty) ?hins
    refine pointsRecheck_of_insolvent st s ur hty hur ?hlt2
    unfold poInt
    rw [hpo]
    exact hlt
  · intro st k u s ri ur ow po hs hty hacc hpo hpart hri hur how h1 h2 hneq
    have hrun := completeSwap_run st k u s hs hpart hacc
    rw [hrun]
    have hres := completeEffects_points_ok st k s ri ur ow hty hri hur how h1 h2
    rw [hres]
    refine ⟨rfl, ?req3, ?own3⟩
    · rw [lookup_setEntry, if_neg hneq, lookup_setEntry, if_pos rfl, hur]
      simp [updateStats]
    · rw [lookup_setEntry, if_pos rfl, lookup_setEntry, if_neg (fun h => hneq h.symm), how]
      simp [updateStats, hpo]

/-- C1 witness: accepting the demo points swap moves 100 points from
requester to owner. -/
theorem C1_witness :
    (respondSwap demoPending 0 2 true).2 = none ∧
    (lookup (respondSwap demoPending 0 2 true).1.users 1).map UserRec.points = some 20 ∧
    (lookup (respondSwap demoPending 0 2 true).1.users 2).map UserRec.points = some 100 := by
  have h := C1_points_transfer_at_accept.1 demoPending 0 demoPendingSwap demoItemX
    demoUserA demoUserB 100 (by decide) rfl rfl rfl (by decide) rfl (by decide) (by decide)
    (by decide) (by decide) (by decide)
  exact ⟨h.1, h.2.1.trans (by decide), h.2.2.trans (by decide)⟩

/-- C1 counterexample to the claim as stated: in demoAccepted the
points swap is accepted, the requester holds 20 < 100 = pointsOffered,
yet complete succeeds (no InsufficientBalance), the requester's balance
stays 20 instead of dropping by pointsOffered, and the owner is
credited another 100. -/
theorem C1_counterexample :
    (lookup demoAccepted.swaps 0).map SwapRec.status = some SwapStatus.accepted ∧
    (lookup demoAccepted.swaps 0).map SwapRec.pointsOffered = some (some 100) ∧
    (lookup demoAccepted.users 1).map UserRec.points = some 20 ∧
    (20 : Int) < 100 ∧
    (completeSwap demoAccepted 0 1).2 = none ∧
    (completeSwap demoAccepted 0 1).2 ≠ some SwapError.insufficientBalance ∧
    (lookup (completeSwap demoAccepted 0 1).1.users 1).map UserRec.points = some 20 ∧
    (lookup (completeSwap demoAccepted 0 1).1.users 2).map UserRec.points = some 200 := by
  refine ⟨?a, ?b, ?c, ?d, ?e, ?f, ?g, ?h⟩ <;> decide

/-- C5: a successful accept reserves the requested item (and the
offered item of a direct swap), moves the swap to accepted, appends an
(accepted, now) entry to its timeline, and changes nothing else about
the item records — only their status field is touched, and items other
than the two involved are untouched. -/
theorem C5_accept_effects :
    (∀ (st : EngineState) (k : Nat) (s : SwapRec) (ri : ItemRec) (ur ow : UserRec) (po : Nat),
      lookup st.swaps k = some s → s.type = SwapType.points →
      s.status = SwapStatus.pending → s.pointsOffered = some po →
      lookup st.items s.requestedItem = some ri → ri.status = ItemStatus.available →
      lookup st.users s.requester = some ur → lookup st.users s.owner = some ow →
      (po : Int) ≤ ur.points → 0 ≤ ow.points →
      (respondSwap st k s.owner true).2 = none ∧
      lookup (respondSwap st k s.owner true).1.swaps k =
        some (updateStatus s SwapStatus.accepted st.now) ∧
      (updateStatus s SwapStatus.accepted st.now).status = SwapStatus.accepted ∧
      (updateStatus s SwapStatus.accepted st.now).timeline =
        s.timeline ++ [(SwapStatus.accepted, st.now)] ∧
      lookup (respondSwap st k s.owner true).1.items s.requestedItem =
        some { ri with status := ItemStatus.reserved } ∧
      (∀ j, j ≠ s.requestedItem →
        lookup (respondSwap st k s.owner true).1.items j = lookup st.items j)) ∧
    (∀ (st : EngineState) (k : Nat) (s : SwapRec) (ri : ItemRec) (oid : Nat) (oi : ItemRec),
      lookup st.swaps k = some s → s.type = SwapType.direct →
      s.status = SwapStatus.pending → s.offeredItem = some oid →
      lookup st.items s.requestedItem = some ri → ri.status = ItemStatus.available →
      lookup st.items oid = some oi → oi.status = ItemStatus.available →
      oid ≠ s.requestedItem →
      (respondSwap st k s.owner true).2 = none ∧
      lookup (respondSwap st k s.owner true).1.swaps k =
        some (updateStatus s SwapStatus.accepted st.now) ∧
      lookup (respondSwap st k s.owner true).1.items s.requestedItem =
        some { ri with status := ItemStatus.reserved } ∧
      lookup (respondSwap st k s.owner true).1.items oid =
        some { oi with status := ItemStatus.reserved } ∧
      (∀ j, j ≠ s.requestedItem → j ≠ oid →
        lookup (respondSwap st k s.owner true).1.items j = lookup st.items j)) := by
  constructor
  · intro st k s ri ur ow po hs hty hpend hpo hri hav hur how hge hownn
    have hrun := respondSwap_accept_run st k s ri hs hpend hri hav
      (offeredRecheck_of_points st s hty)
      (pointsRecheck_of_solvent st s ur hty hur (by unfold poInt; rw [hpo]; exact hge))
    rw [hrun]
    have hres := acceptEffects_points_result st k s ri ur ow hty hur how
      (by unfold poInt; rw [hpo]; simp; omega) (by unfold poInt; rw [hpo]; simp; omega)
    have hsw := acceptEffects_swaps st k s ri
    have hit := acceptEffects_points_items st k s ri hty
    refine ⟨hres.2, ?sw, updateStatus_status s _ _, updateStatus_timeline s _ _, ?it, ?fr⟩
    · rw [hsw, lookup_setEntry, if_pos rfl, hs]
      rfl
    · rw [hit, lookup_setEntry, if_pos rfl, hri]
      rfl
    · intro j hj
      rw [hit, lookup_setEntry, if_neg hj]
  · intro st k s ri oid oi hs hty hpend ho hri hav hoi hoav hne
    have hoi2 : lookup (setEntry st.items s.requestedItem { ri with status := ItemStatus.reserved })
        oid = some oi := by
      rw [lookup_setEntry, if_neg hne, hoi]
    have hrun := respondSwap_accept_run st k s ri hs hpend hri hav
      (offeredRecheck_of_avail st s oid oi hty ho hoi hoav)
      (pointsRecheck_of_direct st s hty)
    rw [hrun]
    have hres := acceptEffects_direct_result st k s ri hty
    have hsw := acceptEffects_swaps st k s ri
    have hit := acceptEffects_direct_items st k s ri oid oi hty ho hoi2
    refine ⟨hres.2, ?sw2, ?it1, ?it2, ?fr2⟩
    · rw [hsw, lookup_setEntry, if_pos rfl, hs]
      rfl
    · rw [hit, lookup_setEntry, if_neg (fun h => hne h.symm), lookup_setEntry, if_pos rfl, hri]
      rfl
    · rw [hit, lookup_setEntry, if_pos rfl, hoi2]
      rfl
    · intro j hj1 hj2
      rw [hit, lookup_setEntry, if_neg hj2, lookup_setEntry, if_neg hj1]

/-- C5 witness: accepting the direct demo swap reserves both items and
stamps the accepted transition. -/
theorem C5_witness :
    (respondSwap demoDirectPending 0 2 true).2 = none ∧
    lookup (respondSwap demoDirectPending 0 2 true).1.swaps 0 =
      some (updateStatus demoDirectSwap SwapStatus.accepted 1000) ∧
    lookup (respondSwap demoDirectPending 0 2 true).1.items 10 =
      some { demoItemX with status := ItemStatus.reserved } ∧
    lookup (respondSwap demoDirectPending 0 2 true).1.items 20 =
      some { demoItemY with status := ItemStatus.reserved } := by
  have h := C5_accept_effects.2 demoDirectPending 0 demoDirectSwap demoItemX 20 demoItemY
    (by decide) rfl rfl rfl (by decide) rfl (by decide) rfl (by decide)
  exact ⟨h.1, h.2.1, h.2.2.1, h.2.2.2.1⟩

/-- C6: when an acceptance-time re-check fails — the requested item no
longer available, the offered item of a direct swap no longer
available, or the requester of a points swap no longer solvent —
respond fails and returns the state unchanged: the swap stays pending
and no item or ledger write happens. -/
theorem C6_accept_recheck_failure :
    (∀ (st : EngineState) (k : Nat) (s : SwapRec) (ri : ItemRec),
      lookup st.swaps k = some s → s.status = SwapStatus.pending →
      lookup st.items s.requestedItem = some ri → ri.status ≠ ItemStatus.available →
      respondSwap st k s.owner true = (st, some SwapError.staleItem)) ∧
    (∀ (st : EngineState) (k : Nat) (s : SwapRec) (ri : ItemRec) (oid : Nat) (oi : ItemRec),
      lookup st.swaps k = some s → s.type = SwapType.direct →
      s.status = SwapStatus.pending → s.offeredItem = some oid →
      lookup st.items s.requestedItem = some ri → ri.status = ItemStatus.available →
      lookup st.items oid = some oi → oi.status ≠ ItemStatus.available →
      respondSwap st k s.owner true = (st, some SwapError.staleOffered)) ∧
    (∀ (st : EngineState) (k : Nat) (s : SwapRec) (ri : ItemRec) (ur : UserRec) (po : Nat),
      lookup st.swaps k = some s → s.type = SwapType.points →
      s.status = SwapStatus.pending → s.pointsOffered = some po →
      lookup st.items s.requestedItem = some ri → ri.status = ItemStatus.available →
      lookup st.users s.requester = some ur → ur.points < (po : Int) →
      respondSwap st k s.owner true = (st, some SwapError.insufficientBalance)) := by
  refine ⟨?one, ?two, ?three⟩
  · intro st k s ri hs hpend hri hav
    exact respondSwap_staleItem st k s ri hs hpend hri hav
  · intro st k s ri oid oi hs hty hpend ho hri hav hoi hoav
    exact respondSwap_recheckErr st k s ri SwapError.staleOffered hs hpend hri hav
      (offeredRecheck_of_stale st s oid oi hty ho hoi hoav)
  · intro st k s ri ur po hs hty hpend hpo hri hav hur hlt
    refine respondSwap_pointsErr st k s ri SwapError.insufficientBalance hs hpend hri hav
      (offeredRecheck_of_points st s hty) ?hins
    refine pointsRecheck_of_insolvent st s ur hty hur ?hlt2
    unfold poInt
    rw [hpo]
    exact hlt

/-- C6 witness: accepting over a reserved item fails with StaleItem,
and accepting an underfunded points swap fails with
InsufficientBalance; both leave the state untouched. -/
theorem C6_witness :
    respondSwap demoStaleState 0 2 true = (demoStaleState, some SwapError.staleItem) ∧
    respondSwap demoPoorState 0 2 true =
      (demoPoorState, some SwapError.insufficientBalance) := by
  constructor
  · exact C6_accept_recheck_failure.1 demoStaleState 0 demoPoorSwap
      { demoItemX with status := ItemStatus.reserved } (by decide) rfl (by decide) (by decide)
  · exact C6_accept_recheck_failure.2.2 demoPoorState 0 demoPoorSwap demoItemX demoPoorUser 100
      (by decide) rfl rfl rfl (by decide) rfl (by decide) (by decide)

/-- C7: complete succeeds only for a participant acting on an accepted
swap, and a successful complete marks the requested item (and the
offered item of a direct swap) swapped, moves the swap to completed,
and stamps completedAt with the completion time. -/
theorem C7_complete_effects :
    (∀ (st : EngineState) (k u : Nat), (completeSwap st k u).2 = none →
      ∃ s, lookup st.swaps k = some s ∧ isParticipant s u = true ∧
        s.status = SwapStatus.accepted) ∧
    (∀ (st : EngineState) (k u : Nat) (s : SwapRec) (ri : ItemRec) (ur ow : UserRec),
      lookup st.swaps k = some s → s.type = SwapType.points →
      s.status = SwapStatus.accepted → isParticipant s u = true →
      lookup st.items s.requestedItem = some ri →
      lookup st.users s.requester = some ur → lookup st.users s.owner = some ow →
      0 ≤ ur.points → 0 ≤ ow.points →
      (completeSwap st k u).2 = none ∧
      lookup (completeSwap st k u).1.swaps k =
        some (updateStatus s SwapStatus.completed st.now) ∧
      (updateStatus s SwapStatus.completed st.now).status = SwapStatus.completed ∧
      (updateStatus s SwapStatus.completed st.now).completedAt = some st.now ∧
      lookup (completeSwap st k u).1.items s.requestedItem =
        some { ri with status := ItemStatus.swapped }) ∧
    (∀ (st : EngineState) (k u : Nat) (s : SwapRec) (ri : ItemRec) (oid : Nat) (oi : ItemRec)
      (ur ow : UserRec),
      lookup st.swaps k = some s → s.type = SwapType.direct →
      s.status = SwapStatus.accepted → isParticipant s u = true →
      s.offeredItem = some oid → oid ≠ s.requestedItem →
      lookup st.items s.requestedItem = some ri → lookup st.items oid = some oi →
      lookup st.users s.requester = some ur → lookup st.users s.owner = some ow →
      0 ≤ ur.points → 0 ≤ ow.points →
      (completeSwap st k u).2 = none ∧
      lookup (completeSwap st k u).1.swaps k =
        some (updateStatus s SwapStatus.completed st.now) ∧
      (updateStatus s SwapStatus.completed st.now).completedAt = some st.now ∧
      lookup (completeSwap st k u).1.items s.requestedItem =
        some { ri with status := ItemStatus.swapped } ∧
      lookup (completeSwap st k u).1.items oid =
        some { oi with status := ItemStatus.swapped }) := by
  refine ⟨completeSwap_success_inv, ?two, ?three⟩
  · intro st k u s ri ur ow hs hty hacc hpart hri hur how h1 h2
    have hrun := completeSwap_run st k u s hs hpart hacc
    rw [hrun]
    have hres := completeEffects_points_ok st k s ri ur ow hty hri hur how h1 h2
    rw [hres]
    refine ⟨rfl, ?sw7, updateStatus_status s _ _, updateStatus_completedAt s _, ?it7⟩
    · rw [lookup_setEntry, if_pos rfl, hs]
      rfl
    · rw [lookup_setEntry, if_pos rfl, hri]
      rfl
  · intro st k u s ri oid oi ur ow hs hty hacc hpart ho hne hri hoi hur how h1 h2
    have hoi2 : lookup (setEntry st.items s.requestedItem { ri with status := ItemStatus.swapped })
        oid = some oi := by
      rw [lookup_setEntry, if_neg hne, hoi]
    have hrun := completeSwap_run st k u s hs hpart hacc
    rw [hrun]
    have hres := completeEffects_direct_ok st k s ri oid oi ur ow hty ho hri hoi2 hur how h1 h2
    rw [hres]
    refine ⟨rfl, ?sw8, updateStatus_completedAt s _, ?it8, ?it9⟩
    · rw [lookup_setEntry, if_pos rfl, hs]
      rfl
    · rw [lookup_setEntry, if_neg (fun h => hne h.symm), lookup_setEntry, if_pos rfl, hri]
      rfl
    · rw [lookup_setEntry, if_pos rfl, hoi2]
      rfl

/-- C7 witness: completing the accepted demo points swap marks the
item swapped, the swap completed, and stamps completedAt. -/
theorem C7_witness :
    (completeSwap demoAccepted 0 1).2 = none ∧
    lookup (completeSwap demoAccepted 0 1).1.swaps 0 =
      some (updateStatus demoAcceptedSwap SwapStatus.completed 1000) ∧
    (updateStatus demoAcceptedSwap SwapStatus.completed 1000).completedAt = some 1000 ∧
    lookup (completeSwap demoAccepted 0 1).1.items 10 =
      some { demoItemXReserved with status := ItemStatus.swapped } := by
  have h := C7_complete_effects.2.1 demoAccepted 0 1 demoAcceptedSwap demoItemXReserved
    demoUserA20 demoUserB100 (by decide) rfl rfl (by decide) (by decide) (by decide) (by decide)
    (by decide) (by decide)
  exact ⟨h.1, h.2.1, h.2.2.2.1, h.2.2.2.2⟩

/-- C9: creating a points swap whose requester cannot cover the offer
fails with InsufficientBalance, inserting nothing; and a points create
can only succeed when the offer is at least the item's pointValue. -/
theorem C9_create_points_insufficient :
    ∀ (st : EngineState) (r i : Nat) (oi : Option Nat) (po : Nat)
      (doc : ItemRec) (ur : UserRec),
      lookup st.items i = some doc → doc.status = ItemStatus.available →
      doc.owner ≠ r → lookup st.users r = some ur → 1 ≤ po →
      ((ur.points < (po : Int) →
        createSwap st r SwapType.points i oi (some po) =
          (st, some SwapError.insufficientBalance)) ∧
       ((createSwap st r SwapType.points i oi (some po)).2 = none →
        doc.pointValue ≤ po)) := by
  intro st r i oi po doc ur hI hav hno hur hpo1
  constructor
  · intro hlt
    have hpc : pointsChecks st r doc (some po) = some SwapError.insufficientBalance := by
      unfold pointsChecks
      simp only [hur]
      have hz : ¬ ((some po : Option Nat).getD 0 == 0) = true := by
        simp only [Option.getD_some, beq_iff_eq]
        omega
      rw [if_neg hz, if_pos]
      simp only [Option.getD_some]
      exact hlt
    unfold createSwap
    dsimp only
    simp only [hI]
    rw [if_neg (by simp [hav]), if_neg hno]
    simp [hpc]
  · intro hok
    rcases createSwap_success_inv st r SwapType.points i oi (some po) hok with
      ⟨doc2, hI2, _hav2, _hno2, hty2, _hdup⟩
    rw [hI] at hI2
    cases hI2
    exact (pointsChecks_success st r doc po ur hur hty2).2

/-- C9 witness: scenario A — item of pointValue 100, offer of 150
against a balance of 120 fails with InsufficientBalance; and the
successful 100-point create indeed offered at least the pointValue. -/
theorem C9_witness :
    createSwap demoState 1 SwapType.points 10 none (some 150) =
      (demoState, some SwapError.insufficientBalance) ∧
    demoItemX.pointValue ≤ 100 := by
  have h := C9_create_points_insufficient demoState 1 10 none 150 demoItemX demoUserA
    (by decide) rfl (by decide) (by decide) (by decide)
  have h2 := C9_create_points_insufficient demoState 1 10 none 100 demoItemX demoUserA
    (by decide) rfl (by decide) (by decide) (by decide)
  exact ⟨h.1 (by decide), h2.2 (by decide)⟩

end ReWear
